import Mathlib

/-!
Verification of the nexus3d runtime core against its specification.

The C sources are shallowly embedded over an arbitrary linear ordered field
`K` (instantiated at `ℚ` or `ℝ` in concrete statements); C `float` arithmetic
is modelled as exact field arithmetic, and `sqrtf` is modelled as an explicit
function parameter `sq : K → K` supplied at each call site (instantiated with
`Real.sqrt`, or with a function agreeing with the exact square root on the
inputs that actually occur).  Pointers that may be NULL are modelled with
`Option`.  Each definition mirrors one C function and is named after it;
comments cite the file and line range it embeds.
-/

namespace Nexus3d

/-! ## Vectors and matrices (cglm, column-major `mat4`)

A cglm `mat4` entry `m[c][r]` (column `c`, row `r`) is modelled as the entry
in row `r`, column `c` of a `Matrix (Fin 4) (Fin 4) K`, so `glm_mat4_mul`
is plain matrix multiplication acting on column vectors. -/

/-- A cglm `vec3`. -/
structure V3 (K : Type) where
  x : K
  y : K
  z : K
deriving DecidableEq, Repr

/-- A cglm `versor` (quaternion, layout `[x, y, z, w]`). -/
structure Versor (K : Type) where
  x : K
  y : K
  z : K
  w : K
deriving DecidableEq, Repr

variable {K : Type} [LinearOrderedField K]

/-- `glm_vec3_sub`: componentwise difference. -/
def glm_vec3_sub (a b : V3 K) : V3 K := ⟨a.x - b.x, a.y - b.y, a.z - b.z⟩

/-- `glm_vec3_add`: componentwise sum. -/
def glm_vec3_add (a b : V3 K) : V3 K := ⟨a.x + b.x, a.y + b.y, a.z + b.z⟩

/-- `glm_vec3_scale`: scalar multiple. -/
def glm_vec3_scale (a : V3 K) (s : K) : V3 K := ⟨s * a.x, s * a.y, s * a.z⟩

/-- `glm_vec3_dot`: dot product. -/
def glm_vec3_dot (a b : V3 K) : K := a.x * b.x + a.y * b.y + a.z * b.z

/-- `glm_vec3_norm2`: squared Euclidean norm. -/
def glm_vec3_norm2 (a : V3 K) : K := glm_vec3_dot a a

/-- `glm_vec3_normalize` (cglm): divide by the norm, or zero the vector when
the norm is zero.  The square root of `sqrtf` is the parameter `sq`. -/
def glm_vec3_normalize (sq : K → K) (a : V3 K) : V3 K :=
  let norm := sq (glm_vec3_norm2 a)
  if norm = 0 then ⟨0, 0, 0⟩ else glm_vec3_scale a (1 / norm)

/-- A cglm `mat4`, as a mathematical 4×4 matrix over `K`. -/
abbrev Mat4 (K : Type) := Matrix (Fin 4) (Fin 4) K

/-- `glm_mat4_mul m1 m2`: matrix product `m1 * m2` (cglm composes column-major
columns, which is exactly mathematical matrix multiplication). -/
def glm_mat4_mul (m1 m2 : Mat4 K) : Mat4 K := m1 * m2

/-- `nexus_mat4_translation` (math_utils, input.h:243-248): identity with the
translation vector in the last column. -/
def nexus_mat4_translation (v : V3 K) : Mat4 K :=
  Matrix.of ![![1, 0, 0, v.x], ![0, 1, 0, v.y], ![0, 0, 1, v.z], ![0, 0, 0, 1]]

/-- `nexus_mat4_scaling` (math_utils, input.h:251-256): diagonal scale matrix. -/
def nexus_mat4_scaling (v : V3 K) : Mat4 K :=
  Matrix.of ![![v.x, 0, 0, 0], ![0, v.y, 0, 0], ![0, 0, v.z, 0], ![0, 0, 0, 1]]

/-- `glm_translate m v`: post-multiply by a translation, `m := m * T(v)`
(cglm adds `m[0]*v0 + m[1]*v1 + m[2]*v2` to column 3). -/
def glm_translate (m : Mat4 K) (v : V3 K) : Mat4 K :=
  glm_mat4_mul m (nexus_mat4_translation v)

/-- `glm_scale m v`: post-multiply by a scale, `m := m * S(v)`
(cglm scales columns 0,1,2 of `m` by the components of `v`). -/
def glm_scale (m : Mat4 K) (v : V3 K) : Mat4 K :=
  glm_mat4_mul m (nexus_mat4_scaling v)

/-- `glm_quat_mat4 q dest`: quaternion to rotation matrix.  cglm computes
`norm = sqrtf(x²+y²+z²+w²)`, `s = norm > 0 ? 2/norm : 0`, then fills the
column-major entries `dest[c][r]`; below they appear transposed as row-major
rows.  `sq` stands for `sqrtf`. -/
def glm_quat_mat4 (sq : K → K) (q : Versor K) : Mat4 K :=
  let norm := sq (q.x * q.x + q.y * q.y + q.z * q.z + q.w * q.w)
  let s := if 0 < norm then 2 / norm else 0
  let xx := s * q.x * q.x
  let yy := s * q.y * q.y
  let zz := s * q.z * q.z
  let xy := s * q.x * q.y
  let yz := s * q.y * q.z
  let xz := s * q.x * q.z
  let wx := s * q.w * q.x
  let wy := s * q.w * q.y
  let wz := s * q.w * q.z
  Matrix.of
    ![![1 - yy - zz, xy - wz,     xz + wy,     0],
      ![xy + wz,     1 - xx - zz, yz - wx,     0],
      ![xz - wy,     yz + wx,     1 - xx - yy, 0],
      ![0,           0,           0,           1]]

/-- Apply a `mat4` to a point (homogeneous coordinate 1), returning the
first three components, as the engine's shaders and cameras consume it. -/
def mat4ApplyPoint (m : Mat4 K) (v : V3 K) : V3 K :=
  ⟨m 0 0 * v.x + m 0 1 * v.y + m 0 2 * v.z + m 0 3,
   m 1 0 * v.x + m 1 1 * v.y + m 1 2 * v.z + m 1 3,
   m 2 0 * v.x + m 2 1 * v.y + m 2 2 * v.z + m 2 3⟩

/-! ## ECS components (src/unnamed/part_000, src/src/ecs/components.c) -/

/-- `NexusPositionComponent { vec3 value; }`. -/
structure NexusPositionComponent (K : Type) where
  value : V3 K
deriving DecidableEq, Repr

/-- `NexusRotationComponent { vec3 euler; versor quaternion; }`. -/
structure NexusRotationComponent (K : Type) where
  euler : V3 K
  quaternion : Versor K
deriving DecidableEq, Repr

/-- `NexusScaleComponent { vec3 value; }`. -/
structure NexusScaleComponent (K : Type) where
  value : V3 K
deriving DecidableEq, Repr

/-- `NexusTransformComponent { mat4 local; mat4 world; bool dirty; }`. -/
structure NexusTransformComponent (K : Type) where
  localM : Mat4 K
  world : Mat4 K
  dirty : Bool

/-- `NexusVelocityComponent { vec3 linear; vec3 angular; }`. -/
structure NexusVelocityComponent (K : Type) where
  linear : V3 K
  angular : V3 K
deriving DecidableEq, Repr

/-- `NexusRigidBodyComponent` (mass, restitution, friction and the three
behaviour flags; the collision shape pointer is not needed here). -/
structure NexusRigidBodyComponent (K : Type) where
  mass : K
  restitution : K
  friction : K
  kinematic : Bool
  trigger : Bool
  sleeping : Bool
deriving DecidableEq, Repr

/-- `NexusCameraComponent { NexusCamera* camera; bool primary; bool active; }`;
the camera object pointer is modelled as an opaque handle. -/
structure NexusCameraComponent where
  camera : Nat
  primary : Bool
  active : Bool
deriving DecidableEq, Repr

variable {K : Type} [LinearOrderedField K]

/-! ## Fixed-timestep physics loop (src/unnamed/part_005:484-699)

`ecs_progress(world, 0)` advances the external flecs world; it is modelled as
an abstract step function `step : K → W → W` applied to an abstract world
state `W`, where the `K` argument is the effective delta time the source
selects for the tick via `ecs_set_target_fps(world, 1.0 / dt)`.  A NULL
`ecs_world_t*` is `none`. -/

/-- Physics configuration (`NexusPhysicsConfig`). -/
structure NexusPhysicsConfig (K : Type) where
  gravity : V3 K
  fixed_timestep : K
  max_substeps : Nat
  debug_draw : Bool
deriving DecidableEq, Repr

/-- Physics system state (`NexusPhysics`). -/
structure NexusPhysics (K W : Type) where
  world : Option W
  config : NexusPhysicsConfig K
  accumulated_time : K
  iteration_count : Nat
  paused : Bool

/-- `NEXUS_PHYSICS_DEFAULT_TIMESTEP` = `1.0f / 60.0f` (part_005:488). -/
def NEXUS_PHYSICS_DEFAULT_TIMESTEP : K := 1 / 60

/-- `NEXUS_PHYSICS_DEFAULT_MAX_SUBSTEPS` = `10` (part_005:489). -/
def NEXUS_PHYSICS_DEFAULT_MAX_SUBSTEPS : Nat := 10

/-- Default gravity `(0, -9.81, 0)` (part_005:485-487). -/
def NEXUS_PHYSICS_DEFAULT_GRAVITY : V3 K := ⟨0, -981 / 100, 0⟩

/-- `nexus_physics_create` (part_005:510-570): fresh state over a non-NULL
world, with default configuration, zero accumulator, not paused. -/
def nexus_physics_create {W : Type} (w : W) : NexusPhysics K W where
  world := some w
  config :=
    { gravity := NEXUS_PHYSICS_DEFAULT_GRAVITY
      fixed_timestep := NEXUS_PHYSICS_DEFAULT_TIMESTEP
      max_substeps := NEXUS_PHYSICS_DEFAULT_MAX_SUBSTEPS
      debug_draw := false }
  accumulated_time := 0
  iteration_count := 0
  paused := false

/-- Result of the substep `while` loop of `nexus_physics_update`. -/
structure SubstepResult (K W : Type) where
  acc : K
  iters : Nat
  world : W
  trace : List K

/-- The `while (accumulated_time >= fixed_timestep && iteration_count <
max_substeps)` loop of `nexus_physics_update` (part_005:608-622), with the
remaining iteration budget `max_substeps - iteration_count` as fuel.  Each
iteration runs one `ecs_progress` tick at `dt = fixed_timestep`, subtracts
`fixed_timestep` from the accumulator and counts the iteration; `trace`
records the delta time of every tick in order. -/
def physicsSubstepLoop {W : Type} (step : K → W → W) (ts : K) :
    Nat → K → W → SubstepResult K W
  | 0, acc, w => ⟨acc, 0, w, []⟩
  | fuel + 1, acc, w =>
      if ts ≤ acc then
        let r := physicsSubstepLoop step ts fuel (acc - ts) (step ts w)
        ⟨r.acc, r.iters + 1, r.world, ts :: r.trace⟩
      else ⟨acc, 0, w, []⟩

/-- `nexus_physics_update` (part_005:600-640).  Returns the new state paired
with the trace of delta times fed to `ecs_progress`.  Mirrors the source:
early return when the state or its world is NULL or the system is paused;
otherwise add `dt` to the accumulator, reset `iteration_count`, drain fixed
steps, and if time remains after hitting `max_substeps` run one extra tick
with the remaining time and zero the accumulator. -/
def nexus_physics_update {W : Type} (step : K → W → W)
    (physics : NexusPhysics K W) (dt : K) : NexusPhysics K W × List K :=
  match physics.world with
  | none => (physics, [])
  | some w =>
      if physics.paused then (physics, [])
      else
        let acc0 := physics.accumulated_time + dt
        let r := physicsSubstepLoop step physics.config.fixed_timestep
          physics.config.max_substeps acc0 w
        if 0 < r.acc ∧ physics.config.max_substeps ≤ r.iters then
          ({ physics with
              world := some (step r.acc r.world)
              accumulated_time := 0
              iteration_count := r.iters },
            r.trace ++ [r.acc])
        else
          ({ physics with
              world := some r.world
              accumulated_time := r.acc
              iteration_count := r.iters },
            r.trace)

/-- `nexus_physics_set_timestep` (part_005:671-677): NULL pointer or a
non-positive timestep leave the state untouched; otherwise store it. -/
def nexus_physics_set_timestep {W : Type}
    (physics : Option (NexusPhysics K W)) (timestep : K) :
    Option (NexusPhysics K W) :=
  match physics with
  | none => none
  | some p =>
      if timestep ≤ 0 then some p
      else some { p with config := { p.config with fixed_timestep := timestep } }

/-- `nexus_physics_pause` (part_005:693-699): set the `paused` flag. -/
def nexus_physics_pause {W : Type} (physics : NexusPhysics K W)
    (paused : Bool) : NexusPhysics K W :=
  { physics with paused := paused }

/-! ## Phase scheduler (src/src/ecs/systems.c:370-553, src/unnamed/part_004:30-131)

`nexus_ecs_register_systems` creates the nine phase entities, adds an
`EcsDependsOn` pair from each phase to its predecessor, and attaches each
built-in system to its phase.  The flecs pipeline itself is external to the
repository; per the spec it executes phases in an order compatible with the
declared `DependsOn` edges, which is modelled below by quantifying over all
position assignments that respect the edges. -/

/-- The nine phase tags declared in systems.c:13-21. -/
inductive NexusPhase
  | init
  | input
  | physics
  | logic
  | animation
  | preRender
  | render
  | postRender
  | cleanup
deriving DecidableEq, Repr

/-- The `EcsDependsOn` pairs added by `nexus_ecs_register_systems`
(systems.c:426-434, part_004:85-93): `(p, q)` means phase `p` was declared to
depend on phase `q`. -/
def nexus_phase_dependencies : List (NexusPhase × NexusPhase) :=
  [(.input, .init), (.physics, .input), (.logic, .physics),
   (.animation, .logic), (.preRender, .animation), (.render, .preRender),
   (.postRender, .render), (.cleanup, .postRender)]

/-- The documented total order of the pipeline, as a position in the frame. -/
def nexus_phase_order : NexusPhase → Fin 9
  | .init => 0
  | .input => 1
  | .physics => 2
  | .logic => 3
  | .animation => 4
  | .preRender => 5
  | .render => 6
  | .postRender => 7
  | .cleanup => 8

/-- Modelled from the spec: the flecs pipeline (external to the repository)
runs each phase at some position in the frame such that every declared
`EcsDependsOn` edge is respected, i.e. a phase runs strictly after the phase
it depends on. -/
def respectsDependsOn (pos : NexusPhase → Fin 9) : Prop :=
  ∀ pq ∈ nexus_phase_dependencies, pos pq.2 < pos pq.1

/-- The system-to-phase attachments performed by `nexus_ecs_register_systems`
(systems.c:440-553): each registered system entity with the phase tag added
to it by `ecs_add_id`. -/
def registeredSystems : List (String × NexusPhase) :=
  [("NexusTransformSystem", .preRender), ("NexusHierarchySystem", .preRender),
   ("NexusCameraSystem", .preRender), ("NexusLightSystem", .preRender),
   ("NexusRendererSystem", .render), ("NexusPhysicsSystem", .physics),
   ("NexusAnimationSystem", .animation), ("NexusAudioSystem", .logic)]

/-! ## Transform system (src/src/ecs/systems.c:559-599)

For each matched entity with `dirty` set, the registered transform system
builds `local` as identity, then `glm_translate` by the position, then
`glm_mat4_mul` with the quaternion's rotation matrix, then `glm_scale` by the
scale; copies `local` into `world` and clears `dirty`. -/

variable {K : Type} [LinearOrderedField K]

/-- The local matrix computed by `nexus_transform_system` (systems.c:575-590). -/
def nexus_transform_system_local (sq : K → K) (position : V3 K)
    (rotation : Versor K) (scale : V3 K) : Mat4 K :=
  let m : Mat4 K := 1
  let m := glm_translate m position
  let rotation_matrix := glm_quat_mat4 sq rotation
  let m := glm_mat4_mul m rotation_matrix
  glm_scale m scale

/-- The per-entity action of `nexus_transform_system` (systems.c:559-599):
when `dirty`, recompute `local`, copy it to `world`, clear `dirty`;
otherwise leave the component untouched. -/
def nexus_transform_system_entity (sq : K → K) (position : NexusPositionComponent K)
    (rotation : NexusRotationComponent K) (scale : NexusScaleComponent K)
    (transform : NexusTransformComponent K) : NexusTransformComponent K :=
  if transform.dirty then
    let localM := nexus_transform_system_local sq position.value
      rotation.quaternion scale.value
    ⟨localM, localM, false⟩
  else transform

/-! ## Hierarchy systems (src/src/ecs/systems.c:62-80 and 604-626)

The repository holds two conflicting implementations.  The first
(systems.c:62-80) multiplies `parent.world * local` into `world` for every
iterated entity whose parent has a `NexusTransformComponent`, in query
iteration order.  The second (systems.c:604-626), registered together with
the transform system above, ignores parent links entirely and copies
`local` into `world` for entities still marked dirty. -/

/-- An entity as seen by the transform/hierarchy frame pass: id, parent id
(`0` = no parent, as with `ecs_get_parent`), spatial components, transform. -/
structure HEntity (K : Type) where
  id : Nat
  parent : Nat
  position : NexusPositionComponent K
  rotation : NexusRotationComponent K
  scale : NexusScaleComponent K
  transform : NexusTransformComponent K

/-- One frame tick of the transform system over all matched entities. -/
def transformPass (sq : K → K) (es : List (HEntity K)) : List (HEntity K) :=
  es.map fun e =>
    { e with
        transform :=
          nexus_transform_system_entity sq e.position e.rotation e.scale
            e.transform }

/-- Look up an entity's transform by id (`ecs_get(world, parent,
NexusTransformComponent)`), `none` when absent. -/
def lookupTransform (es : List (HEntity K)) (id : Nat) :
    Option (NexusTransformComponent K) :=
  (es.find? fun e => e.id = id).map (·.transform)

/-- The per-entity action of the first hierarchy system (systems.c:62-80):
if the entity has a parent and the parent has a transform component in the
current world state, set `world := parent.world * local`. -/
def nexus_hierarchy_system1_entity (es : List (HEntity K)) (e : HEntity K) :
    HEntity K :=
  if e.parent ≠ 0 then
    (match lookupTransform es e.parent with
     | some pt =>
        { e with transform :=
            { e.transform with
                world := glm_mat4_mul pt.world e.transform.localM } }
     | none => e)
  else e

/-- One frame tick of the first hierarchy system (systems.c:62-80), applied
to the entities sequentially in iteration order: mutations made to earlier
entities are visible when later ones read their parent's transform.  flecs
fixes no parent-before-child order for this query, so the iteration order is
the list order. -/
def nexus_hierarchy_system1_pass : List (HEntity K) → List (HEntity K) :=
  fun es => loop es.length es
where
  loop : Nat → List (HEntity K) → List (HEntity K)
    | 0, w => w
    | n + 1, w =>
        let i := w.length - (n + 1)
        match w.get? i with
        | some e => loop n (w.set i (nexus_hierarchy_system1_entity w e))
        | none => w

/-- The per-entity action of the second, registered hierarchy system
(systems.c:604-626): copy `local` into `world` and clear `dirty` when the
entity is still dirty; parents are never consulted. -/
def nexus_hierarchy_system2_entity (e : HEntity K) : HEntity K :=
  if e.transform.dirty then
    { e with transform :=
        { e.transform with world := e.transform.localM, dirty := false } }
  else e

/-- One frame tick of the second hierarchy system (systems.c:604-626). -/
def nexus_hierarchy_system2_pass (es : List (HEntity K)) : List (HEntity K) :=
  es.map nexus_hierarchy_system2_entity

/-- A full frame's transform-then-hierarchy pass as registered in
`nexus_ecs_register_systems` (systems.c:440-467): the transform system and
then the hierarchy system of systems.c:604-626, both in the PreRender phase
in registration order. -/
def framePass (sq : K → K) (es : List (HEntity K)) : List (HEntity K) :=
  nexus_hierarchy_system2_pass (transformPass sq es)

/-- The action of `framePass` on a single entity: both registered systems act
entity-by-entity, so the full pass is the map of this function. -/
def framePassEntity (sq : K → K) (e : HEntity K) : HEntity K :=
  nexus_hierarchy_system2_entity
    { e with
        transform :=
          nexus_transform_system_entity sq e.position e.rotation e.scale
            e.transform }

/-! ## Per-step physics systems (src/src/ecs/systems.c:631-655,
src/unnamed/part_005:833-846) -/

/-- The per-entity action of the registered `nexus_physics_system`
(systems.c:631-655): when a rigid body is present and neither sleeping nor
kinematic, subtract `9.8f * delta_time` from `position.y`; nothing else is
touched (in particular the velocity is never read or written). -/
def nexus_physics_system_entity (delta_time : K)
    (body : Option (NexusRigidBodyComponent K))
    (position : NexusPositionComponent K) : NexusPositionComponent K :=
  match body with
  | some b =>
      if !b.sleeping && !b.kinematic then
        { position with value :=
            { position.value with
                y := position.value.y - 98 / 10 * delta_time } }
      else position
  | none => position

/-- The per-entity action of `nexus_physics_movement_system`
(part_005:833-846): `position += velocity.linear * delta_time` for every
matched entity, with no gravity and no body-flag checks. -/
def nexus_physics_movement_system_entity (delta_time : K)
    (position : NexusPositionComponent K)
    (velocity : NexusVelocityComponent K) : NexusPositionComponent K :=
  { position with value :=
      glm_vec3_add position.value (glm_vec3_scale velocity.linear delta_time) }

/-- Follows the words of the spec (section 4.6, the claim being checked
against the code): one semi-implicit Euler step, `velocity.y += gravity.y *
dt` first, then `position += velocity * dt`. -/
def spec_semi_implicit_euler_step (gravity : V3 K) (dt : K)
    (velocity : NexusVelocityComponent K) (position : NexusPositionComponent K) :
    NexusVelocityComponent K × NexusPositionComponent K :=
  let velocity := { velocity with
    linear := { velocity.linear with y := velocity.linear.y + gravity.y * dt } }
  (velocity,
    { position with value :=
        glm_vec3_add position.value (glm_vec3_scale velocity.linear dt) })

/-! ## Sphere-sphere collision (src/unnamed/part_005:785-828) -/

/-- `NexusCollisionInfo` (part_005:492-497). -/
structure NexusCollisionInfo (K : Type) where
  collided : Bool
  contact_point : V3 K
  contact_normal : V3 K
  penetration_depth : K
deriving DecidableEq, Repr

/-- `detect_sphere_sphere_collision` (part_005:785-828).  Returns `none` for
the `false` outcome and `some info` for the `true` outcome with the filled
`NexusCollisionInfo` (the caller passes a non-NULL info pointer); `sq`
stands for `sqrtf`. -/
def detect_sphere_sphere_collision (sq : K → K) (pos_a : V3 K) (radius_a : K)
    (pos_b : V3 K) (radius_b : K) : Option (NexusCollisionInfo K) :=
  let direction := glm_vec3_sub pos_b pos_a
  let distance_sq := glm_vec3_norm2 direction
  let radius_sum := radius_a + radius_b
  if radius_sum * radius_sum ≤ distance_sq then none
  else
    let distance := sq distance_sq
    let contact_normal :=
      if 1 / 10000 < distance then glm_vec3_scale direction (1 / distance)
      else (⟨0, 1, 0⟩ : V3 K)
    let contact_point := glm_vec3_add pos_a (glm_vec3_scale contact_normal radius_a)
    some ⟨true, contact_point, contact_normal, radius_sum - distance⟩

/-- Follows the words of the spec: `normalize(p_b - p_a)`, the difference
vector divided by its Euclidean norm (`sq` supplies the square root). -/
def spec_normalize (sq : K → K) (v : V3 K) : V3 K :=
  glm_vec3_scale v (1 / sq (glm_vec3_norm2 v))

/-! ## Raycast (src/unnamed/part_005:886-962,
src/include/nexus3d/input/input.h:347-403) -/

/-- `NexusRay` (input.h:343-346). -/
structure NexusRay (K : Type) where
  origin : V3 K
  direction : V3 K
deriving DecidableEq, Repr

/-- `nexus_ray_set` (input.h:349-358): store origin and direction and
normalize the direction in place. -/
def nexus_ray_set (sq : K → K) (ox oy oz dx dy dz : K) : NexusRay K :=
  ⟨⟨ox, oy, oz⟩, glm_vec3_normalize sq ⟨dx, dy, dz⟩⟩

/-- `nexus_ray_sphere_intersect` (input.h:371-403): quadratic ray/sphere
test; `none` for a miss, `some t` for the nearest intersection parameter in
the positive ray direction. -/
def nexus_ray_sphere_intersect (sq : K → K) (ray : NexusRay K) (center : V3 K)
    (radius : K) : Option K :=
  let oc := glm_vec3_sub ray.origin center
  let a := glm_vec3_dot ray.direction ray.direction
  let b := 2 * glm_vec3_dot oc ray.direction
  let c := glm_vec3_dot oc oc - radius * radius
  let discriminant := b * b - 4 * a * c
  if discriminant < 0 then none
  else
    let d := sq discriminant
    let t1 := (-b - d) / (2 * a)
    let t2 := (-b + d) / (2 * a)
    if 0 ≤ t1 then some t1
    else if 0 ≤ t2 then some t2
    else none

/-- The cumulative closest-hit state of the scan loop in
`nexus_physics_raycast` (part_005:905-950). -/
structure RaycastScan (K : Type) where
  closest_distance : K
  closest_entity : Nat
  closest_point : V3 K
  closest_normal : V3 K
  hit_found : Bool
deriving DecidableEq, Repr

/-- One candidate inspection of the scan loop (part_005:921-945): intersect
the ray with a unit sphere (`radius = 1.0f`, the source's default test size)
at the candidate's position; on an intersection closer than the current
closest, record entity, hit point `origin + t * direction` and normalized
`point - position` normal. -/
def raycastScanStep (sq : K → K) (ray : NexusRay K) (s : RaycastScan K)
    (candidate : Nat × V3 K) : RaycastScan K :=
  match nexus_ray_sphere_intersect sq ray candidate.2 1 with
  | some t =>
      if t < s.closest_distance then
        let point := glm_vec3_add ray.origin (glm_vec3_scale ray.direction t)
        ⟨t, candidate.1, point,
          glm_vec3_normalize sq (glm_vec3_sub point candidate.2), true⟩
      else s
  | none => s

/-- `nexus_physics_raycast` (part_005:886-962) over the candidate list the
world query yields (entity id paired with `NexusPositionComponent.value`).
Output parameters are modelled as the returned record: on a miss the
initialisations at part_005:893-896 survive (`entity = 0`, zero point and
normal, `hit_distance = max_distance`) and the returned flag is `false`. -/
def nexus_physics_raycast (sq : K → K) (candidates : List (Nat × V3 K))
    (origin direction : V3 K) (max_distance : K) :
    Bool × Nat × V3 K × V3 K × K :=
  let ray := nexus_ray_set sq origin.x origin.y origin.z
    direction.x direction.y direction.z
  let scan := candidates.foldl (raycastScanStep sq ray)
    ⟨max_distance, 0, ⟨0, 0, 0⟩, ⟨0, 0, 0⟩, false⟩
  if scan.hit_found then
    (true, scan.closest_entity, scan.closest_point, scan.closest_normal,
      scan.closest_distance)
  else (false, 0, ⟨0, 0, 0⟩, ⟨0, 0, 0⟩, max_distance)

/-- Invariant of the raycast scan loop after processing the candidates in
`done`: on a recorded hit the stored distance is below `max_distance` and is
the intersection parameter of some processed candidate whose entity, hit
point and normal are stored; with no recorded hit the state still holds the
initialisation values; and the stored distance is a lower bound on every
processed candidate's intersection parameter. -/
def raycastScanInv (sq : K → K) (ray : NexusRay K) (max_distance : K)
    (done : List (Nat × V3 K)) (s : RaycastScan K) : Prop :=
  (s.hit_found = true →
      s.closest_distance < max_distance ∧
        ∃ c ∈ done,
          nexus_ray_sphere_intersect sq ray c.2 1 = some s.closest_distance ∧
            s.closest_entity = c.1 ∧
            s.closest_point =
              glm_vec3_add ray.origin
                (glm_vec3_scale ray.direction s.closest_distance) ∧
            s.closest_normal =
              glm_vec3_normalize sq (glm_vec3_sub s.closest_point c.2)) ∧
    (s.hit_found = false →
      s = ⟨max_distance, 0, ⟨0, 0, 0⟩, ⟨0, 0, 0⟩, false⟩) ∧
    ∀ c ∈ done, ∀ t, nexus_ray_sphere_intersect sq ray c.2 1 = some t →
      s.closest_distance ≤ t

/-! ## Primary-camera observer (src/src/ecs/components.c:129-174)

The observer registered on `NexusCameraComponent` for `EcsOnAdd`/`EcsOnSet`
fires after a camera is written to an entity; when the written camera has
`primary == true` it walks every other entity holding a camera and clears
its `primary` flag.  The camera store is modelled as an association list of
entity id and component. -/

/-- The observer callback body (components.c:134-173) for one written entity
`e` whose stored camera has `primary == true`: every other entity's camera
with `primary` set is unmarked. -/
def camera_primary_observer (w : List (Nat × NexusCameraComponent)) (e : Nat) :
    List (Nat × NexusCameraComponent) :=
  w.map fun pc =>
    if pc.1 = e then pc
    else if pc.2.primary then (pc.1, { pc.2 with primary := false })
    else pc

/-- `ecs_set(world, e, NexusCameraComponent, cam)`: store the component
(replacing an existing one, else appending the new entity) and fire the
observer, which acts only when the written camera is primary. -/
def nexus_camera_set (w : List (Nat × NexusCameraComponent)) (e : Nat)
    (cam : NexusCameraComponent) : List (Nat × NexusCameraComponent) :=
  let w :=
    if w.any fun pc => pc.1 = e then
      w.map fun pc => if pc.1 = e then (e, cam) else pc
    else w ++ [(e, cam)]
  if cam.primary then camera_primary_observer w e else w

/-! ## Theorems -/

/-- Closed form of the substep `while` loop: with a positive fixed timestep
it runs `min fuel ⌊acc/ts⌋` iterations, each consuming `ts` and ticking the
world once at `dt = ts`. -/
theorem physicsSubstepLoop_closed {W : Type} [FloorRing K] (step : K → W → W)
    (ts : K) (hts : 0 < ts) :
    ∀ (fuel : Nat) (acc : K) (w : W),
      physicsSubstepLoop step ts fuel acc w =
        ⟨acc - (min fuel (⌊acc / ts⌋).toNat : Nat) * ts,
          min fuel (⌊acc / ts⌋).toNat,
          (step ts)^[min fuel (⌊acc / ts⌋).toNat] w,
          List.replicate (min fuel (⌊acc / ts⌋).toNat) ts⟩ := by
  intro fuel
  induction fuel with
  | zero => intro acc w; simp [physicsSubstepLoop]
  | succ f ih =>
      intro acc w
      rw [physicsSubstepLoop]
      by_cases hc : ts ≤ acc
      · rw [if_pos hc, ih]
        have h1 : (1 : K) ≤ acc / ts := (one_le_div hts).mpr hc
        have hf1 : 1 ≤ ⌊acc / ts⌋ := Int.le_floor.mpr (by exact_mod_cast h1)
        have hsub : (acc - ts) / ts = acc / ts - 1 := by
          field_simp
        have hfe : ⌊(acc - ts) / ts⌋ = ⌊acc / ts⌋ - 1 := by
          rw [hsub, Int.floor_sub_one]
        have htn : (⌊(acc - ts) / ts⌋).toNat = (⌊acc / ts⌋).toNat - 1 := by
          rw [hfe]; omega
        have hgt : 1 ≤ (⌊acc / ts⌋).toNat := by omega
        simp only [SubstepResult.mk.injEq, htn]
        refine ⟨?_, ?_, ?_, ?_⟩
        · have hmin : min f ((⌊acc / ts⌋).toNat - 1) + 1
              = min (f + 1) (⌊acc / ts⌋).toNat := by omega
          rw [← hmin]
          push_cast
          ring
        · omega
        · have hmin : min f ((⌊acc / ts⌋).toNat - 1) + 1
              = min (f + 1) (⌊acc / ts⌋).toNat := by omega
          rw [← hmin, Function.iterate_succ_apply]
        · have hmin : min f ((⌊acc / ts⌋).toNat - 1) + 1
              = min (f + 1) (⌊acc / ts⌋).toNat := by omega
          rw [← hmin, List.replicate_succ]
      · rw [if_neg hc]
        have hlt : acc / ts < 1 := (div_lt_one hts).mpr (not_le.mp hc)
        have : ⌊acc / ts⌋ < 1 := Int.floor_lt.mpr (by exact_mod_cast hlt)
        have h0 : (⌊acc / ts⌋).toNat = 0 := by omega
        simp [h0]

/-- Characterization of `nexus_physics_update` on a live, unpaused state
with a positive fixed timestep, in terms of the closed form of the loop. -/
theorem nexus_physics_update_closed {W : Type} [FloorRing K] (step : K → W → W)
    (physics : NexusPhysics K W) (w : W) (dt : K)
    (hw : physics.world = some w) (hp : physics.paused = false)
    (hts : 0 < physics.config.fixed_timestep) :
    nexus_physics_update step physics dt =
      (let ts := physics.config.fixed_timestep
       let n := min physics.config.max_substeps
         (⌊(physics.accumulated_time + dt) / ts⌋).toNat
       let rem := physics.accumulated_time + dt - n * ts
       if 0 < rem ∧ physics.config.max_substeps ≤ n then
         ({ physics with
             world := some (step rem ((step ts)^[n] w))
             accumulated_time := 0
             iteration_count := n },
           List.replicate n ts ++ [rem])
       else
         ({ physics with
             world := some ((step ts)^[n] w)
             accumulated_time := rem
             iteration_count := n },
           List.replicate n ts)) := by
  rw [nexus_physics_update, hw]
  simp only [hp, Bool.false_eq_true, if_false,
    physicsSubstepLoop_closed step physics.config.fixed_timestep hts]

/-- Claim C1: one call to `nexus_physics_update` on a live unpaused state with
`fixed_timestep > 0` adds `frame_dt` to `accumulated_time` and drains it in
full fixed-size steps while `accumulated_time >= fixed_timestep`, capped at
`max_substeps` iterations (subtracting `fixed_timestep` each time, so the
number of full steps is `min max_substeps ⌊(accumulated_time + frame_dt) /
fixed_timestep⌋`); when time remains after hitting the cap it runs exactly one
extra drain step with the remaining time and resets `accumulated_time` to 0.
Feeding `frame_dt = 100 * fixed_timestep` to a default-configured state yields
exactly `max_substeps = 10` full steps plus one drain step of the remaining
`90 * fixed_timestep = 3/2` seconds, never more.  The defaults are
`fixed_timestep = 1/60` and `max_substeps = 10`. -/
theorem claim_C1_fixed_timestep_loop :
    (∀ (W : Type) (step : ℚ → W → W) (physics : NexusPhysics ℚ W) (w : W)
        (dt : ℚ),
        physics.world = some w → physics.paused = false →
        0 < physics.config.fixed_timestep →
        (nexus_physics_update step physics dt).2 =
            List.replicate
                (min physics.config.max_substeps
                  (⌊(physics.accumulated_time + dt) /
                      physics.config.fixed_timestep⌋).toNat)
                physics.config.fixed_timestep ++
              (if 0 < physics.accumulated_time + dt -
                      (min physics.config.max_substeps
                        (⌊(physics.accumulated_time + dt) /
                            physics.config.fixed_timestep⌋).toNat : Nat) *
                        physics.config.fixed_timestep ∧
                    min physics.config.max_substeps
                        (⌊(physics.accumulated_time + dt) /
                            physics.config.fixed_timestep⌋).toNat =
                      physics.config.max_substeps then
                [physics.accumulated_time + dt -
                  (min physics.config.max_substeps
                    (⌊(physics.accumulated_time + dt) /
                        physics.config.fixed_timestep⌋).toNat : Nat) *
                    physics.config.fixed_timestep]
              else []) ∧
          (nexus_physics_update step physics dt).1.accumulated_time =
            (if 0 < physics.accumulated_time + dt -
                    (min physics.config.max_substeps
                      (⌊(physics.accumulated_time + dt) /
                          physics.config.fixed_timestep⌋).toNat : Nat) *
                      physics.config.fixed_timestep ∧
                  min physics.config.max_substeps
                      (⌊(physics.accumulated_time + dt) /
                          physics.config.fixed_timestep⌋).toNat =
                    physics.config.max_substeps then 0
            else physics.accumulated_time + dt -
              (min physics.config.max_substeps
                (⌊(physics.accumulated_time + dt) /
                    physics.config.fixed_timestep⌋).toNat : Nat) *
                physics.config.fixed_timestep)) ∧
    (∀ (W : Type) (step : ℚ → W → W) (w : W),
        (nexus_physics_update step (nexus_physics_create w)
            (100 * NEXUS_PHYSICS_DEFAULT_TIMESTEP)).2 =
          List.replicate 10 NEXUS_PHYSICS_DEFAULT_TIMESTEP ++
            [90 * NEXUS_PHYSICS_DEFAULT_TIMESTEP]) ∧
    NEXUS_PHYSICS_DEFAULT_TIMESTEP = (1 : ℚ) / 60 ∧
    NEXUS_PHYSICS_DEFAULT_MAX_SUBSTEPS = 10 := by
  have hfloor : (⌊((0 : ℚ) + 100 * (1 / 60)) / (1 / 60)⌋).toNat = 100 := by
    have h1 : ((0 : ℚ) + 100 * (1 / 60)) / (1 / 60) = ((100 : ℤ) : ℚ) := by
      norm_num
    rw [h1, Int.floor_intCast]
    rfl
  refine ⟨?_, ?_, rfl, rfl⟩
  · intro W step physics w dt hw hp hts
    have hcl := nexus_physics_update_closed step physics w dt hw hp hts
    rw [hcl]
    have hnle : min physics.config.max_substeps
        (⌊(physics.accumulated_time + dt) /
            physics.config.fixed_timestep⌋).toNat ≤
        physics.config.max_substeps := min_le_left _ _
    by_cases hc : 0 < physics.accumulated_time + dt -
        (min physics.config.max_substeps
          (⌊(physics.accumulated_time + dt) /
              physics.config.fixed_timestep⌋).toNat : Nat) *
          physics.config.fixed_timestep ∧
        physics.config.max_substeps ≤
          min physics.config.max_substeps
            (⌊(physics.accumulated_time + dt) /
                physics.config.fixed_timestep⌋).toNat
    · have hc2 : 0 < physics.accumulated_time + dt -
          (min physics.config.max_substeps
            (⌊(physics.accumulated_time + dt) /
                physics.config.fixed_timestep⌋).toNat : Nat) *
            physics.config.fixed_timestep ∧
          min physics.config.max_substeps
              (⌊(physics.accumulated_time + dt) /
                  physics.config.fixed_timestep⌋).toNat =
            physics.config.max_substeps := ⟨hc.1, le_antisymm hnle hc.2⟩
      simp only [if_pos hc, if_pos hc2]
      constructor <;> first | rfl | trivial
    · have hc2 : ¬(0 < physics.accumulated_time + dt -
          (min physics.config.max_substeps
            (⌊(physics.accumulated_time + dt) /
                physics.config.fixed_timestep⌋).toNat : Nat) *
            physics.config.fixed_timestep ∧
          min physics.config.max_substeps
              (⌊(physics.accumulated_time + dt) /
                  physics.config.fixed_timestep⌋).toNat =
            physics.config.max_substeps) := by
        intro h
        exact hc ⟨h.1, h.2.ge⟩
      simp only [if_neg hc, if_neg hc2]
      constructor <;> first | rfl | trivial | rw [List.append_nil]
  · intro W step w
    have hcl := nexus_physics_update_closed step (nexus_physics_create w) w
      (100 * NEXUS_PHYSICS_DEFAULT_TIMESTEP) rfl rfl
      (by norm_num [nexus_physics_create, NEXUS_PHYSICS_DEFAULT_TIMESTEP])
    rw [hcl]
    simp only [nexus_physics_create, NEXUS_PHYSICS_DEFAULT_TIMESTEP,
      NEXUS_PHYSICS_DEFAULT_MAX_SUBSTEPS, hfloor]
    norm_num

/-- Witness for C1: a concrete default-configured state over a trivial world,
fed `frame_dt = 100 * fixed_timestep`: the tick trace is exactly ten full
`1/60` steps followed by one drain step of `3/2`, and the accumulator ends
at zero. -/
theorem claim_C1_witness :
    (nexus_physics_update (fun (_ : ℚ) (u : Unit) => u) (nexus_physics_create ())
        (100 * (1 / 60))).2 =
      List.replicate 10 ((1 : ℚ) / 60) ++ [3 / 2] ∧
    (nexus_physics_update (fun (_ : ℚ) (u : Unit) => u) (nexus_physics_create ())
        (100 * (1 / 60))).1.accumulated_time = 0 := by
  have h := claim_C1_fixed_timestep_loop.1 Unit (fun _ u => u)
    (nexus_physics_create ()) () (100 * (1 / 60)) rfl rfl
    (by norm_num [nexus_physics_create, NEXUS_PHYSICS_DEFAULT_TIMESTEP])
  have hfloor : (⌊((nexus_physics_create () : NexusPhysics ℚ Unit).accumulated_time
      + 100 * (1 / 60)) /
      (nexus_physics_create () : NexusPhysics ℚ Unit).config.fixed_timestep⌋).toNat
      = 100 := by
    have h1 : ((nexus_physics_create () : NexusPhysics ℚ Unit).accumulated_time
        + 100 * (1 / 60)) /
        (nexus_physics_create () : NexusPhysics ℚ Unit).config.fixed_timestep
        = ((100 : ℤ) : ℚ) := by
      norm_num [nexus_physics_create, NEXUS_PHYSICS_DEFAULT_TIMESTEP]
    rw [h1, Int.floor_intCast]
    rfl
  rw [hfloor] at h
  obtain ⟨h1, h2⟩ := h
  constructor
  · rw [h1]
    norm_num [nexus_physics_create, NEXUS_PHYSICS_DEFAULT_TIMESTEP,
      NEXUS_PHYSICS_DEFAULT_MAX_SUBSTEPS]
  · rw [h2]
    norm_num [nexus_physics_create, NEXUS_PHYSICS_DEFAULT_TIMESTEP,
      NEXUS_PHYSICS_DEFAULT_MAX_SUBSTEPS]

/-- Claim C9: `nexus_physics_set_timestep` leaves `config.fixed_timestep`
unchanged for a non-positive timestep or a NULL physics pointer and stores a
positive timestep; so starting from the positive default the stored timestep
stays strictly positive, and with a positive timestep the substep loop of
`nexus_physics_update` runs at most `max_substeps` full iterations (plus at
most the single drain tick), each subtracting the full `fixed_timestep`. -/
theorem claim_C9_set_timestep :
    (∀ (K : Type) [LinearOrderedField K] (W : Type) (p : NexusPhysics K W)
        (t : K), t ≤ 0 → nexus_physics_set_timestep (some p) t = some p) ∧
    (∀ (K : Type) [LinearOrderedField K] (W : Type) (p : NexusPhysics K W)
        (t : K), 0 < t →
        nexus_physics_set_timestep (some p) t =
          some { p with config := { p.config with fixed_timestep := t } }) ∧
    (∀ (K : Type) [LinearOrderedField K] (W : Type) (t : K),
        nexus_physics_set_timestep (none : Option (NexusPhysics K W)) t =
          none) ∧
    (0 : ℚ) < NEXUS_PHYSICS_DEFAULT_TIMESTEP ∧
    (∀ (K : Type) [LinearOrderedField K] (W : Type) (p : NexusPhysics K W)
        (t : K) (q : NexusPhysics K W),
        nexus_physics_set_timestep (some p) t = some q →
        0 < p.config.fixed_timestep → 0 < q.config.fixed_timestep) ∧
    (∀ (W : Type) (step : ℚ → W → W) (p : NexusPhysics ℚ W) (w : W) (dt : ℚ),
        p.world = some w → p.paused = false → 0 < p.config.fixed_timestep →
        (nexus_physics_update step p dt).1.iteration_count ≤
            p.config.max_substeps ∧
          (nexus_physics_update step p dt).2.length ≤
            p.config.max_substeps + 1) := by
  refine ⟨?_, ?_, ?_, by norm_num [NEXUS_PHYSICS_DEFAULT_TIMESTEP], ?_, ?_⟩
  · intro K _ W p t ht
    simp [nexus_physics_set_timestep, ht]
  · intro K _ W p t ht
    simp [nexus_physics_set_timestep, not_le.mpr ht]
  · intro K _ W t
    rfl
  · intro K _ W p t q hset hp
    by_cases ht : t ≤ 0
    · simp [nexus_physics_set_timestep, ht] at hset
      rw [← hset]
      exact hp
    · simp [nexus_physics_set_timestep, ht] at hset
      rw [← hset]
      exact lt_of_not_le ht
  · intro W step p w dt hw hp hts
    have hcl := nexus_physics_update_closed step p w dt hw hp hts
    rw [hcl]
    have hnle : min p.config.max_substeps
        (⌊(p.accumulated_time + dt) / p.config.fixed_timestep⌋).toNat ≤
        p.config.max_substeps := min_le_left _ _
    by_cases hc : 0 < p.accumulated_time + dt -
        (min p.config.max_substeps
          (⌊(p.accumulated_time + dt) / p.config.fixed_timestep⌋).toNat : Nat) *
          p.config.fixed_timestep ∧
        p.config.max_substeps ≤
          min p.config.max_substeps
            (⌊(p.accumulated_time + dt) / p.config.fixed_timestep⌋).toNat
    · simp only [if_pos hc, List.length_append, List.length_replicate,
        List.length_singleton]
      omega
    · simp only [if_neg hc, List.length_replicate]
      omega

/-- Witness for C9: setting `t = -1` on a concrete default state is a no-op,
setting `t = 1/120` stores it, the stored timestep stays positive, and an
update of the default state runs at most ten full iterations. -/
theorem claim_C9_witness :
    nexus_physics_set_timestep (some (nexus_physics_create (K := ℚ) ())) (-1) =
        some (nexus_physics_create ()) ∧
      (0 : ℚ) < NEXUS_PHYSICS_DEFAULT_TIMESTEP ∧
      (nexus_physics_update (fun (_ : ℚ) (u : Unit) => u)
          (nexus_physics_create ()) 1).1.iteration_count ≤ 10 := by
  refine ⟨claim_C9_set_timestep.1 ℚ Unit (nexus_physics_create ()) (-1)
    (by norm_num), claim_C9_set_timestep.2.2.2.1, ?_⟩
  have h := (claim_C9_set_timestep.2.2.2.2.2 Unit (fun _ u => u)
    (nexus_physics_create ()) () 1 rfl rfl
    (by norm_num [nexus_physics_create, NEXUS_PHYSICS_DEFAULT_TIMESTEP])).1
  simpa [nexus_physics_create, NEXUS_PHYSICS_DEFAULT_MAX_SUBSTEPS] using h

/-- Claim C10: when the physics system is paused, or the state or its ECS
world pointer is NULL, `nexus_physics_update` returns immediately: the state
(accumulator, iteration count, configuration and world — hence every entity
position and velocity) is exactly as before and no tick is run. -/
theorem claim_C10_paused_noop :
    (∀ (K : Type) [LinearOrderedField K] (W : Type) (step : K → W → W)
        (physics : NexusPhysics K W) (dt : K),
        physics.paused = true ∨ physics.world = none →
        nexus_physics_update step physics dt = (physics, [])) ∧
    (∀ (K : Type) [LinearOrderedField K] (W : Type) (step : K → W → W)
        (physics : NexusPhysics K W) (dt : K),
        nexus_physics_update step (nexus_physics_pause physics true) dt =
          (nexus_physics_pause physics true, [])) := by
  have main : ∀ (K : Type) [LinearOrderedField K] (W : Type) (step : K → W → W)
      (physics : NexusPhysics K W) (dt : K),
      physics.paused = true ∨ physics.world = none →
      nexus_physics_update step physics dt = (physics, []) := by
    intro K _ W step physics dt h
    rw [nexus_physics_update]
    match hw : physics.world with
    | none => rfl
    | some w =>
        have hp : physics.paused = true := by
          rcases h with h | h
          · exact h
          · rw [hw] at h; cases h
        simp [hp]
  exact ⟨main, fun K _ W step physics dt =>
    main K W step (nexus_physics_pause physics true) dt (Or.inl rfl)⟩

/-- Witness for C10: pausing a concrete default state makes one update call
with `dt = 1` a no-op. -/
theorem claim_C10_witness :
    nexus_physics_update (fun (_ : ℚ) (u : Unit) => u)
        (nexus_physics_pause (nexus_physics_create ()) true) 1 =
      (nexus_physics_pause (nexus_physics_create ()) true, []) :=
  claim_C10_paused_noop.1 ℚ Unit (fun _ u => u)
    (nexus_physics_pause (nexus_physics_create ()) true) 1 (Or.inl rfl)

/-- Claim C2: the `EcsDependsOn` edges declared by
`nexus_ecs_register_systems` make each of the nine phases depend on its
predecessor in `Init, Input, Physics, Logic, Animation, PreRender, Render,
PostRender, Cleanup`; consequently any assignment of frame positions to the
phases that respects the declared dependencies is exactly that single total
order, and for any two registered systems whose phases are ordered, the
earlier phase's system runs strictly before the later phase's system in the
frame. -/
theorem claim_C2_phase_order :
    (∀ pq ∈ nexus_phase_dependencies,
        (nexus_phase_order pq.1).val = (nexus_phase_order pq.2).val + 1) ∧
    (∀ pos : NexusPhase → Fin 9, respectsDependsOn pos →
        pos = nexus_phase_order) ∧
    (∀ pos : NexusPhase → Fin 9, respectsDependsOn pos →
        ∀ s1 ∈ registeredSystems, ∀ s2 ∈ registeredSystems,
          nexus_phase_order s1.2 < nexus_phase_order s2.2 →
            pos s1.2 < pos s2.2) := by
  have huniq : ∀ pos : NexusPhase → Fin 9, respectsDependsOn pos →
      pos = nexus_phase_order := by
    intro pos h
    have h1 := h (.input, .init) (by decide)
    have h2 := h (.physics, .input) (by decide)
    have h3 := h (.logic, .physics) (by decide)
    have h4 := h (.animation, .logic) (by decide)
    have h5 := h (.preRender, .animation) (by decide)
    have h6 := h (.render, .preRender) (by decide)
    have h7 := h (.postRender, .render) (by decide)
    have h8 := h (.cleanup, .postRender) (by decide)
    simp only [Fin.lt_def] at h1 h2 h3 h4 h5 h6 h7 h8
    have hb := (pos .cleanup).isLt
    funext p
    have hval : (pos p).val = (nexus_phase_order p).val := by
      cases p <;> simp only [nexus_phase_order] <;> omega
    exact Fin.ext hval
  refine ⟨by decide, huniq, ?_⟩
  intro pos h s1 _ s2 _ hlt
  rw [huniq pos h]
  exact hlt

/-- Witness for C2: the documented order itself respects the declared
dependencies, and applying the theorem to it places the Physics-phase system
strictly before the Render-phase system. -/
theorem claim_C2_witness :
    respectsDependsOn nexus_phase_order ∧
      nexus_phase_order NexusPhase.physics < nexus_phase_order NexusPhase.render := by
  have hresp : respectsDependsOn nexus_phase_order := by
    unfold respectsDependsOn
    decide
  refine ⟨hresp, ?_⟩
  exact claim_C2_phase_order.2.2 nexus_phase_order hresp
    ("NexusPhysicsSystem", NexusPhase.physics) (by decide)
    ("NexusRendererSystem", NexusPhase.render) (by decide) (by decide)

/-- Claim C3: for every entity with Position, Rotation, Scale and a Transform
whose dirty flag is set, the registered transform system recomputes the local
matrix as `Translation(position) * Rotation(quaternion) * Scale(scale)` —
scale applied first, then rotation, then translation, translation outermost —
and under that order the local point `(1,0,0)` with uniform scale 2, a
90-degree yaw quaternion and translation `(1,0,0)` lands at `(1,0,-2)`, the
documented corner position. -/
theorem claim_C3_transform_trs :
    (∀ (K : Type) [LinearOrderedField K] (sq : K → K)
        (p : NexusPositionComponent K) (r : NexusRotationComponent K)
        (s : NexusScaleComponent K) (tr : NexusTransformComponent K),
        tr.dirty = true →
        (nexus_transform_system_entity sq p r s tr).localM =
          nexus_mat4_translation p.value * glm_quat_mat4 sq r.quaternion *
            nexus_mat4_scaling s.value) ∧
      mat4ApplyPoint
          (nexus_transform_system_local Real.sqrt ⟨1, 0, 0⟩
            ⟨0, Real.sqrt 2 / 2, 0, Real.sqrt 2 / 2⟩ ⟨2, 2, 2⟩)
          ⟨1, 0, 0⟩ =
        (⟨1, 0, -2⟩ : V3 ℝ) := by
  have hgen : ∀ (K : Type) [LinearOrderedField K] (sq : K → K)
      (p : NexusPositionComponent K) (r : NexusRotationComponent K)
      (s : NexusScaleComponent K) (tr : NexusTransformComponent K),
      tr.dirty = true →
      (nexus_transform_system_entity sq p r s tr).localM =
        nexus_mat4_translation p.value * glm_quat_mat4 sq r.quaternion *
          nexus_mat4_scaling s.value := by
    intro K _ sq p r s tr hdirty
    simp only [nexus_transform_system_entity, hdirty, if_true]
    simp only [nexus_transform_system_local, glm_translate, glm_scale,
      glm_mat4_mul, one_mul]
  refine ⟨hgen, ?_⟩
  have h2 : Real.sqrt 2 * Real.sqrt 2 = 2 := Real.mul_self_sqrt (by norm_num)
  have hR : glm_quat_mat4 Real.sqrt
      (⟨0, Real.sqrt 2 / 2, 0, Real.sqrt 2 / 2⟩ : Versor ℝ) =
      Matrix.of ![![(0:ℝ), 0, 1, 0], ![0, 1, 0, 0], ![-1, 0, 0, 0],
        ![0, 0, 0, 1]] := by
    have harg : (0:ℝ) * 0 + Real.sqrt 2 / 2 * (Real.sqrt 2 / 2) + 0 * 0 +
        Real.sqrt 2 / 2 * (Real.sqrt 2 / 2) = 1 := by
      rw [div_mul_div_comm, h2]
      norm_num
    unfold glm_quat_mat4
    dsimp only
    rw [harg, Real.sqrt_one]
    norm_num
    ext i j
    fin_cases i <;> fin_cases j <;>
      simp [Matrix.vecHead, Matrix.vecTail] <;>
      nlinarith [h2]
  have hlocal : nexus_transform_system_local Real.sqrt (⟨1, 0, 0⟩ : V3 ℝ)
      ⟨0, Real.sqrt 2 / 2, 0, Real.sqrt 2 / 2⟩ ⟨2, 2, 2⟩ =
      nexus_mat4_translation (⟨1, 0, 0⟩ : V3 ℝ) *
        (Matrix.of ![![(0:ℝ), 0, 1, 0], ![0, 1, 0, 0], ![-1, 0, 0, 0],
          ![0, 0, 0, 1]]) * nexus_mat4_scaling ⟨2, 2, 2⟩ := by
    rw [← hR]
    simp only [nexus_transform_system_local, glm_translate, glm_scale,
      glm_mat4_mul, one_mul]
  rw [hlocal]
  simp [mat4ApplyPoint, nexus_mat4_translation, nexus_mat4_scaling,
    Matrix.mul_apply, Fin.sum_univ_four, Matrix.vecHead, Matrix.vecTail]

/-- Witness for C3: the general T·R·S factorization applied to the 90-degree
yaw example over `ℝ`, with the dirty-flag hypothesis discharged on a
concrete dirty transform component. -/
theorem claim_C3_witness :
    (nexus_transform_system_entity Real.sqrt
        (⟨⟨1, 0, 0⟩⟩ : NexusPositionComponent ℝ)
        ⟨⟨0, 0, 0⟩, ⟨0, Real.sqrt 2 / 2, 0, Real.sqrt 2 / 2⟩⟩
        ⟨⟨2, 2, 2⟩⟩ ⟨1, 1, true⟩).localM =
      nexus_mat4_translation (⟨1, 0, 0⟩ : V3 ℝ) *
        glm_quat_mat4 Real.sqrt ⟨0, Real.sqrt 2 / 2, 0, Real.sqrt 2 / 2⟩ *
        nexus_mat4_scaling ⟨2, 2, 2⟩ :=
  claim_C3_transform_trs.1 ℝ Real.sqrt ⟨⟨1, 0, 0⟩⟩
    ⟨⟨0, 0, 0⟩, ⟨0, Real.sqrt 2 / 2, 0, Real.sqrt 2 / 2⟩⟩ ⟨⟨2, 2, 2⟩⟩
    ⟨1, 1, true⟩ rfl

/-- Counterexample to claim C4: run a full frame over a parent at position
`(1,0,0)` and its child at the origin (both dirty, identity rotation, unit
scale).  The registered hierarchy system (systems.c:604-626) leaves the
child's world matrix equal to its own local (identity) matrix, while
`parent.world * child.local` is the translation by `(1,0,0)` — so the claimed
invariant `child.world = parent.world * child.local` fails.  Moreover the
variant hierarchy system of systems.c:62-80, iterated in an order that visits
the child of a depth-3 chain first, leaves the child's world at identity even
though `parent.world * child.local` ends as the translation. -/
theorem claim_C4_counterexample :
    ((framePass (fun _ : ℚ => 1)
          [⟨1, 0, ⟨⟨1, 0, 0⟩⟩, ⟨⟨0, 0, 0⟩, ⟨0, 0, 0, 1⟩⟩, ⟨⟨1, 1, 1⟩⟩,
              ⟨1, 1, true⟩⟩,
            ⟨2, 1, ⟨⟨0, 0, 0⟩⟩, ⟨⟨0, 0, 0⟩, ⟨0, 0, 0, 1⟩⟩, ⟨⟨1, 1, 1⟩⟩,
              ⟨1, 1, true⟩⟩]).map fun e => e.transform.world) =
        [nexus_mat4_translation (⟨1, 0, 0⟩ : V3 ℚ), 1] ∧
      ((framePass (fun _ : ℚ => 1)
          [⟨1, 0, ⟨⟨1, 0, 0⟩⟩, ⟨⟨0, 0, 0⟩, ⟨0, 0, 0, 1⟩⟩, ⟨⟨1, 1, 1⟩⟩,
              ⟨1, 1, true⟩⟩,
            ⟨2, 1, ⟨⟨0, 0, 0⟩⟩, ⟨⟨0, 0, 0⟩, ⟨0, 0, 0, 1⟩⟩, ⟨⟨1, 1, 1⟩⟩,
              ⟨1, 1, true⟩⟩]).map fun e => e.transform.localM) =
        [nexus_mat4_translation (⟨1, 0, 0⟩ : V3 ℚ), 1] ∧
      glm_mat4_mul (nexus_mat4_translation ⟨1, 0, 0⟩) (1 : Mat4 ℚ) ≠
        (1 : Mat4 ℚ) ∧
      ((nexus_hierarchy_system1_pass
          [⟨3, 2, ⟨⟨0, 0, 0⟩⟩, ⟨⟨0, 0, 0⟩, ⟨0, 0, 0, 1⟩⟩, ⟨⟨1, 1, 1⟩⟩,
              ⟨1, 1, false⟩⟩,
            ⟨2, 1, ⟨⟨0, 0, 0⟩⟩, ⟨⟨0, 0, 0⟩, ⟨0, 0, 0, 1⟩⟩, ⟨⟨1, 1, 1⟩⟩,
              ⟨1, 1, false⟩⟩,
            ⟨1, 0, ⟨⟨1, 0, 0⟩⟩, ⟨⟨0, 0, 0⟩, ⟨0, 0, 0, 1⟩⟩, ⟨⟨1, 1, 1⟩⟩,
              ⟨nexus_mat4_translation (⟨1, 0, 0⟩ : V3 ℚ),
                nexus_mat4_translation (⟨1, 0, 0⟩ : V3 ℚ), false⟩⟩]).map
          fun e => e.transform.world) =
        [1, nexus_mat4_translation (⟨1, 0, 0⟩ : V3 ℚ),
          nexus_mat4_translation (⟨1, 0, 0⟩ : V3 ℚ)] := by
  have hT1ne : glm_mat4_mul (nexus_mat4_translation (⟨1, 0, 0⟩ : V3 ℚ))
      (1 : Mat4 ℚ) ≠ (1 : Mat4 ℚ) := by
    intro h
    simp only [glm_mat4_mul, mul_one] at h
    have h03 := congrFun (congrFun h 0) 3
    simp [nexus_mat4_translation, Matrix.one_apply] at h03
  have hRid : glm_quat_mat4 (fun _ : ℚ => 1) ⟨0, 0, 0, 1⟩ = (1 : Mat4 ℚ) := by
    unfold glm_quat_mat4
    norm_num
    ext i j
    fin_cases i <;> fin_cases j <;>
      simp [Matrix.vecHead, Matrix.vecTail, Matrix.one_apply]
  have hSid : nexus_mat4_scaling (⟨1, 1, 1⟩ : V3 ℚ) = (1 : Mat4 ℚ) := by
    unfold nexus_mat4_scaling
    ext i j
    fin_cases i <;> fin_cases j <;>
      simp [Matrix.vecHead, Matrix.vecTail, Matrix.one_apply]
  have hT0 : nexus_mat4_translation (⟨0, 0, 0⟩ : V3 ℚ) = (1 : Mat4 ℚ) := by
    unfold nexus_mat4_translation
    ext i j
    fin_cases i <;> fin_cases j <;>
      simp [Matrix.vecHead, Matrix.vecTail, Matrix.one_apply]
  have hlocP : nexus_transform_system_local (fun _ : ℚ => 1) ⟨1, 0, 0⟩
      ⟨0, 0, 0, 1⟩ ⟨1, 1, 1⟩ = nexus_mat4_translation ⟨1, 0, 0⟩ := by
    simp [nexus_transform_system_local, glm_translate, glm_scale,
      glm_mat4_mul, hRid, hSid]
  have hlocC : nexus_transform_system_local (fun _ : ℚ => 1) ⟨0, 0, 0⟩
      ⟨0, 0, 0, 1⟩ ⟨1, 1, 1⟩ = (1 : Mat4 ℚ) := by
    simp [nexus_transform_system_local, glm_translate, glm_scale,
      glm_mat4_mul, hRid, hSid, hT0]
  refine ⟨?_, ?_, hT1ne, ?_⟩
  · simp [framePass, transformPass, nexus_hierarchy_system2_pass,
      nexus_hierarchy_system2_entity, nexus_transform_system_entity,
      hlocP, hlocC]
  · simp [framePass, transformPass, nexus_hierarchy_system2_pass,
      nexus_hierarchy_system2_entity, nexus_transform_system_entity,
      hlocP, hlocC]
  · simp [nexus_hierarchy_system1_pass, nexus_hierarchy_system1_pass.loop,
      nexus_hierarchy_system1_entity, lookupTransform, glm_mat4_mul,
      List.find?]

/-- Claim C4 (amended): after a full frame's transform-then-hierarchy pass as
registered (systems.c:440-467 with the hierarchy implementation of
systems.c:604-626), every entity is processed entity-locally: the pass is a
map of a per-entity function; an entity that entered the frame dirty ends
with its world matrix equal to its own freshly computed local matrix (the
T·R·S of its position, quaternion and scale), regardless of its parent link;
an entity that entered clean is untouched.  Parent world matrices are never
multiplied in. -/
theorem claim_C4_amended_hierarchy :
    (∀ (K : Type) [LinearOrderedField K] (sq : K → K) (es : List (HEntity K)),
        framePass sq es = es.map (framePassEntity sq)) ∧
      (∀ (K : Type) [LinearOrderedField K] (sq : K → K) (e : HEntity K),
          e.transform.dirty = true →
          (framePassEntity sq e).transform.world =
              (framePassEntity sq e).transform.localM ∧
            (framePassEntity sq e).transform.localM =
              nexus_transform_system_local sq e.position.value
                e.rotation.quaternion e.scale.value) ∧
      (∀ (K : Type) [LinearOrderedField K] (sq : K → K) (e : HEntity K)
          (pid : Nat),
          (framePassEntity sq { e with parent := pid }).transform =
            (framePassEntity sq e).transform) ∧
      (∀ (K : Type) [LinearOrderedField K] (sq : K → K) (e : HEntity K),
          e.transform.dirty = false →
          (framePassEntity sq e).transform = e.transform) := by
  refine ⟨?_, ?_, ?_, ?_⟩
  · intro K _ sq es
    simp [framePass, transformPass, nexus_hierarchy_system2_pass,
      framePassEntity, List.map_map]
  · intro K _ sq e hd
    simp [framePassEntity, nexus_transform_system_entity, hd,
      nexus_hierarchy_system2_entity]
  · intro K _ sq e pid
    cases hd : e.transform.dirty <;>
      simp [framePassEntity, nexus_transform_system_entity,
        nexus_hierarchy_system2_entity, hd]
  · intro K _ sq e hd
    simp [framePassEntity, nexus_transform_system_entity, hd,
      nexus_hierarchy_system2_entity]

/-- Witness for C4 (amended): the per-entity frame action on a concrete dirty
entity with a parent link ends with world equal to its own local T·R·S
matrix. -/
theorem claim_C4_amended_witness :
    (framePassEntity (fun _ : ℚ => 1)
          ⟨2, 1, ⟨⟨3, 4, 5⟩⟩, ⟨⟨0, 0, 0⟩, ⟨0, 0, 0, 1⟩⟩, ⟨⟨1, 1, 1⟩⟩,
            ⟨1, 1, true⟩⟩).transform.world =
        (framePassEntity (fun _ : ℚ => 1)
          ⟨2, 1, ⟨⟨3, 4, 5⟩⟩, ⟨⟨0, 0, 0⟩, ⟨0, 0, 0, 1⟩⟩, ⟨⟨1, 1, 1⟩⟩,
            ⟨1, 1, true⟩⟩).transform.localM ∧
      (framePassEntity (fun _ : ℚ => 1)
          ⟨2, 1, ⟨⟨3, 4, 5⟩⟩, ⟨⟨0, 0, 0⟩, ⟨0, 0, 0, 1⟩⟩, ⟨⟨1, 1, 1⟩⟩,
            ⟨1, 1, true⟩⟩).transform.localM =
        nexus_transform_system_local (fun _ : ℚ => 1) ⟨3, 4, 5⟩ ⟨0, 0, 0, 1⟩
          ⟨1, 1, 1⟩ :=
  claim_C4_amended_hierarchy.2.1 ℚ (fun _ => 1)
    ⟨2, 1, ⟨⟨3, 4, 5⟩⟩, ⟨⟨0, 0, 0⟩, ⟨0, 0, 0, 1⟩⟩, ⟨⟨1, 1, 1⟩⟩, ⟨1, 1, true⟩⟩
    rfl

/-- Counterexample to claim C5: take a non-kinematic, non-sleeping body of
mass 1 at the origin with zero velocity, `dt = 1` and the default gravity
`(0, -9.81, 0)`.  The claimed semi-implicit Euler step would set
`velocity.y = -9.81` and `position.y = -9.81`; the registered
`nexus_physics_system` instead moves `position.y` to `-9.8` (a hard-coded
constant) and never touches any velocity (its callback does not even read
one), and `nexus_physics_movement_system` adds no gravity at all. -/
theorem claim_C5_counterexample :
    nexus_physics_system_entity (K := ℚ) 1 (some ⟨1, 0, 0, false, false, false⟩)
        ⟨⟨0, 0, 0⟩⟩ = ⟨⟨0, -98 / 10, 0⟩⟩ ∧
      spec_semi_implicit_euler_step (K := ℚ) ⟨0, -981 / 100, 0⟩ 1
          ⟨⟨0, 0, 0⟩, ⟨0, 0, 0⟩⟩ ⟨⟨0, 0, 0⟩⟩ =
        (⟨⟨0, -981 / 100, 0⟩, ⟨0, 0, 0⟩⟩, ⟨⟨0, -981 / 100, 0⟩⟩) ∧
      (⟨⟨0, -98 / 10, 0⟩⟩ : NexusPositionComponent ℚ) ≠ ⟨⟨0, -981 / 100, 0⟩⟩ ∧
      (⟨⟨0, 0, 0⟩, ⟨0, 0, 0⟩⟩ : NexusVelocityComponent ℚ) ≠
        ⟨⟨0, -981 / 100, 0⟩, ⟨0, 0, 0⟩⟩ ∧
      nexus_physics_movement_system_entity (K := ℚ) 1 ⟨⟨0, 0, 0⟩⟩
          ⟨⟨0, 0, 0⟩, ⟨0, 0, 0⟩⟩ = ⟨⟨0, 0, 0⟩⟩ := by
  refine ⟨?_, ?_, ?_, ?_, ?_⟩
  · norm_num [nexus_physics_system_entity]
  · norm_num [spec_semi_implicit_euler_step, glm_vec3_add, glm_vec3_scale]
  · intro h
    have := congrArg (fun p => p.value.y) h
    norm_num at this
  · intro h
    have := congrArg (fun v => v.linear.y) h
    norm_num at this
  · norm_num [nexus_physics_movement_system_entity, glm_vec3_add,
      glm_vec3_scale]

/-- Claim C5 (amended): for every non-kinematic, non-sleeping rigid body, one
tick of the registered `nexus_physics_system` subtracts the hard-coded
`9.8 * dt` from `position.y` and changes nothing else — no velocity is read
or written; kinematic or sleeping bodies (and entities without a body) are
untouched; `nexus_physics_movement_system` separately adds
`velocity.linear * dt` to the position of every matched entity.  After `N`
ticks of the physics system a falling body's height is the linear
`y0 - 9.8 * N * dt`, not a semi-implicit Euler (quadratic-in-`N`)
trajectory. -/
theorem claim_C5_amended_physics_step :
    (∀ (K : Type) [LinearOrderedField K] (dt : K)
        (body : NexusRigidBodyComponent K) (pos : NexusPositionComponent K),
        body.sleeping = false → body.kinematic = false →
        nexus_physics_system_entity dt (some body) pos =
          ⟨⟨pos.value.x, pos.value.y - 98 / 10 * dt, pos.value.z⟩⟩) ∧
      (∀ (K : Type) [LinearOrderedField K] (dt : K)
          (body : NexusRigidBodyComponent K) (pos : NexusPositionComponent K),
          body.sleeping = true ∨ body.kinematic = true →
          nexus_physics_system_entity dt (some body) pos = pos) ∧
      (∀ (K : Type) [LinearOrderedField K] (dt : K)
          (pos : NexusPositionComponent K),
          nexus_physics_system_entity dt none pos = pos) ∧
      (∀ (K : Type) [LinearOrderedField K] (dt : K)
          (pos : NexusPositionComponent K) (vel : NexusVelocityComponent K),
          nexus_physics_movement_system_entity dt pos vel =
            ⟨⟨pos.value.x + vel.linear.x * dt, pos.value.y + vel.linear.y * dt,
              pos.value.z + vel.linear.z * dt⟩⟩) ∧
      (∀ (K : Type) [LinearOrderedField K] (dt : K)
          (body : NexusRigidBodyComponent K) (pos : NexusPositionComponent K)
          (N : Nat),
          body.sleeping = false → body.kinematic = false →
          ((nexus_physics_system_entity dt (some body))^[N] pos).value.y =
            pos.value.y - 98 / 10 * (N : K) * dt) := by
  have hstep : ∀ (K : Type) [LinearOrderedField K] (dt : K)
      (body : NexusRigidBodyComponent K) (pos : NexusPositionComponent K),
      body.sleeping = false → body.kinematic = false →
      nexus_physics_system_entity dt (some body) pos =
        ⟨⟨pos.value.x, pos.value.y - 98 / 10 * dt, pos.value.z⟩⟩ := by
    intro K _ dt body pos hs hk
    simp [nexus_physics_system_entity, hs, hk]
  refine ⟨hstep, ?_, ?_, ?_, ?_⟩
  · intro K _ dt body pos h
    rcases h with h | h <;> simp [nexus_physics_system_entity, h]
  · intro K _ dt pos
    rfl
  · intro K _ dt pos vel
    simp [nexus_physics_movement_system_entity, glm_vec3_add, glm_vec3_scale,
      mul_comm]
  · intro K _ dt body pos N hs hk
    induction N generalizing pos with
    | zero => simp
    | succ n ih =>
        rw [Function.iterate_succ_apply, hstep K dt body pos hs hk, ih]
        push_cast
        ring

/-- Witness for C5 (amended): a concrete falling body at rest, `dt = 1/60`:
one tick lowers `y` by `9.8/60` and sixty ticks lower it by `9.8` exactly
(linearly). -/
theorem claim_C5_amended_witness :
    nexus_physics_system_entity (K := ℚ) (1 / 60)
        (some ⟨1, 0, 0, false, false, false⟩) ⟨⟨0, 0, 0⟩⟩ =
      ⟨⟨0, 0 - 98 / 10 * (1 / 60), 0⟩⟩ ∧
      ((nexus_physics_system_entity (K := ℚ) (1 / 60)
          (some ⟨1, 0, 0, false, false, false⟩))^[60]
          ⟨⟨0, 0, 0⟩⟩).value.y = 0 - 98 / 10 * (60 : ℚ) * (1 / 60) :=
  ⟨claim_C5_amended_physics_step.1 ℚ (1 / 60) ⟨1, 0, 0, false, false, false⟩
      ⟨⟨0, 0, 0⟩⟩ rfl rfl,
    claim_C5_amended_physics_step.2.2.2.2 ℚ (1 / 60)
      ⟨1, 0, 0, false, false, false⟩ ⟨⟨0, 0, 0⟩⟩ 60 rfl rfl⟩

/-- Counterexample to claim C6: spheres of radius 1 at `(0,0,0)` and
`(1/20000, 0, 0)` (centre distance `5·10⁻⁵`, square root supplied exactly)
collide, but because the distance is below the `0.0001` guard of
part_005:806-813 the code returns the default contact normal `(0,1,0)`,
while `normalize(p_b - p_a)` is the well-defined `(1,0,0)` the claim
requires. -/
theorem claim_C6_counterexample :
    detect_sphere_sphere_collision
        (fun x : ℚ => if x = 1 / 400000000 then 1 / 20000 else 0)
        ⟨0, 0, 0⟩ 1 ⟨1 / 20000, 0, 0⟩ 1 =
      some ⟨true, ⟨0, 1, 0⟩, ⟨0, 1, 0⟩, 2 - 1 / 20000⟩ ∧
      spec_normalize (fun x : ℚ => if x = 1 / 400000000 then 1 / 20000 else 0)
          (glm_vec3_sub ⟨1 / 20000, 0, 0⟩ ⟨0, 0, 0⟩) = ⟨1, 0, 0⟩ ∧
      (⟨0, 1, 0⟩ : V3 ℚ) ≠ ⟨1, 0, 0⟩ := by
  refine ⟨?_, ?_, ?_⟩
  · norm_num [detect_sphere_sphere_collision, glm_vec3_sub, glm_vec3_norm2,
      glm_vec3_dot, glm_vec3_scale, glm_vec3_add]
  · norm_num [spec_normalize, glm_vec3_sub, glm_vec3_norm2, glm_vec3_dot,
      glm_vec3_scale]
  · intro h
    have := congrArg (fun v => v.x) h
    norm_num at this

/-- Claim C6 (amended): the sphere-sphere check reports a collision iff
`|p_b - p_a|² < (r_a + r_b)²`; when it reports one, the penetration depth is
`(r_a + r_b) - |p_b - p_a|` and the contact normal is
`normalize(p_b - p_a)` whenever the computed distance exceeds the `0.0001`
guard, and the default `(0,1,0)` otherwise.  Two unit-radius spheres at
distance `3/2` collide with penetration `1/2`; at distance `3` they do not
collide. -/
theorem claim_C6_amended_sphere_collision :
    (∀ (K : Type) [LinearOrderedField K] (sq : K → K) (pa : V3 K) (ra : K)
        (pb : V3 K) (rb : K),
        (detect_sphere_sphere_collision sq pa ra pb rb).isSome = true ↔
          glm_vec3_norm2 (glm_vec3_sub pb pa) < (ra + rb) * (ra + rb)) ∧
      (∀ (K : Type) [LinearOrderedField K] (sq : K → K) (pa : V3 K) (ra : K)
          (pb : V3 K) (rb : K) (info : NexusCollisionInfo K),
          detect_sphere_sphere_collision sq pa ra pb rb = some info →
          info.collided = true ∧
            info.penetration_depth =
              ra + rb - sq (glm_vec3_norm2 (glm_vec3_sub pb pa)) ∧
            (1 / 10000 < sq (glm_vec3_norm2 (glm_vec3_sub pb pa)) →
              info.contact_normal = spec_normalize sq (glm_vec3_sub pb pa)) ∧
            (sq (glm_vec3_norm2 (glm_vec3_sub pb pa)) ≤ 1 / 10000 →
              info.contact_normal = ⟨0, 1, 0⟩)) ∧
      detect_sphere_sphere_collision (fun x : ℚ => if x = 9 / 4 then 3 / 2 else 0)
          ⟨0, 0, 0⟩ 1 ⟨3 / 2, 0, 0⟩ 1 =
        some ⟨true, ⟨1, 0, 0⟩, ⟨1, 0, 0⟩, 1 / 2⟩ ∧
      detect_sphere_sphere_collision (fun x : ℚ => if x = 9 / 4 then 3 / 2 else 0)
          ⟨0, 0, 0⟩ 1 ⟨3, 0, 0⟩ 1 = none := by
  refine ⟨?_, ?_, ?_, ?_⟩
  · intro K _ sq pa ra pb rb
    by_cases h : (ra + rb) * (ra + rb) ≤ glm_vec3_norm2 (glm_vec3_sub pb pa)
    · simp [detect_sphere_sphere_collision, h, not_lt.mpr h]
    · simp [detect_sphere_sphere_collision, h, lt_of_not_le h]
  · intro K _ sq pa ra pb rb info hdet
    by_cases h : (ra + rb) * (ra + rb) ≤ glm_vec3_norm2 (glm_vec3_sub pb pa)
    · simp [detect_sphere_sphere_collision, h] at hdet
    · rw [detect_sphere_sphere_collision] at hdet
      rw [if_neg h] at hdet
      dsimp only at hdet
      by_cases hg : 1 / 10000 < sq (glm_vec3_norm2 (glm_vec3_sub pb pa))
      · rw [if_pos hg] at hdet
        rcases Option.some_inj.mp hdet with rfl
        refine ⟨rfl, rfl, fun _ => rfl, fun hle => absurd hg (not_lt.mpr hle)⟩
      · rw [if_neg hg] at hdet
        rcases Option.some_inj.mp hdet with rfl
        exact ⟨rfl, rfl, fun hgt => absurd hgt hg, fun _ => rfl⟩
  · norm_num [detect_sphere_sphere_collision, glm_vec3_sub, glm_vec3_norm2,
      glm_vec3_dot, glm_vec3_scale, glm_vec3_add]
  · norm_num [detect_sphere_sphere_collision, glm_vec3_sub, glm_vec3_norm2,
      glm_vec3_dot]

/-- Witness for C6 (amended): the two unit spheres at centre distance `3/2`
are reported as colliding (their squared distance `9/4` is below the squared
radius sum `4`), with the penetration and normal given by the theorem at the
concrete collision record. -/
theorem claim_C6_amended_witness :
    (detect_sphere_sphere_collision
        (fun x : ℚ => if x = 9 / 4 then 3 / 2 else 0) ⟨0, 0, 0⟩ 1
        ⟨3 / 2, 0, 0⟩ 1).isSome = true ∧
      (1 / 2 : ℚ) = 1 + 1 - (fun x : ℚ => if x = 9 / 4 then 3 / 2 else 0)
        (glm_vec3_norm2 (glm_vec3_sub ⟨3 / 2, 0, 0⟩ ⟨0, 0, 0⟩)) := by
  constructor
  · exact (claim_C6_amended_sphere_collision.1 ℚ
      (fun x : ℚ => if x = 9 / 4 then 3 / 2 else 0) ⟨0, 0, 0⟩ 1
      ⟨3 / 2, 0, 0⟩ 1).mpr
      (by norm_num [glm_vec3_norm2, glm_vec3_dot, glm_vec3_sub])
  · have h := (claim_C6_amended_sphere_collision.2.1 ℚ
      (fun x : ℚ => if x = 9 / 4 then 3 / 2 else 0) ⟨0, 0, 0⟩ 1
      ⟨3 / 2, 0, 0⟩ 1 ⟨true, ⟨1, 0, 0⟩, ⟨1, 0, 0⟩, 1 / 2⟩
      claim_C6_amended_sphere_collision.2.2.1).2.1
    simpa using h

/-- One scan step preserves the raycast invariant, moving the inspected
candidate into the processed list. -/
theorem raycastScanStep_inv (sq : K → K) (ray : NexusRay K) (maxd : K)
    (done : List (Nat × V3 K)) (s : RaycastScan K) (c : Nat × V3 K)
    (h : raycastScanInv sq ray maxd done s) :
    raycastScanInv sq ray maxd (done ++ [c]) (raycastScanStep sq ray s c) := by
  obtain ⟨hhit, hmiss, hmin⟩ := h
  have hcdle : s.closest_distance ≤ maxd := by
    cases hsf : s.hit_found with
    | true => exact le_of_lt (hhit hsf).1
    | false => rw [hmiss hsf]
  have hhitW : ∀ s2 : RaycastScan K,
      (s2.hit_found = true →
        s2.closest_distance < maxd ∧
          ∃ c2 ∈ done,
            nexus_ray_sphere_intersect sq ray c2.2 1 =
                some s2.closest_distance ∧
              s2.closest_entity = c2.1 ∧
              s2.closest_point =
                glm_vec3_add ray.origin
                  (glm_vec3_scale ray.direction s2.closest_distance) ∧
              s2.closest_normal =
                glm_vec3_normalize sq (glm_vec3_sub s2.closest_point c2.2)) →
      s2.hit_found = true →
        s2.closest_distance < maxd ∧
          ∃ c2 ∈ done ++ [c],
            nexus_ray_sphere_intersect sq ray c2.2 1 =
                some s2.closest_distance ∧
              s2.closest_entity = c2.1 ∧
              s2.closest_point =
                glm_vec3_add ray.origin
                  (glm_vec3_scale ray.direction s2.closest_distance) ∧
              s2.closest_normal =
                glm_vec3_normalize sq (glm_vec3_sub s2.closest_point c2.2) := by
    intro s2 hh hht
    obtain ⟨hd, c2, hc2, hrest⟩ := hh hht
    exact ⟨hd, c2, List.mem_append.mpr (Or.inl hc2), hrest⟩
  rw [raycastScanStep]
  cases hint : nexus_ray_sphere_intersect sq ray c.2 1 with
  | none =>
      dsimp only
      refine ⟨hhitW s hhit, hmiss, ?_⟩
      intro c2 hc2 t ht
      rcases List.mem_append.mp hc2 with hc2 | hc2
      · exact hmin c2 hc2 t ht
      · rcases List.mem_singleton.mp hc2 with rfl
        rw [hint] at ht
        cases ht
  | some t =>
      dsimp only
      by_cases hlt : t < s.closest_distance
      · rw [if_pos hlt]
        refine ⟨?_, ?_, ?_⟩
        · intro _
          refine ⟨lt_of_lt_of_le hlt hcdle,
            ⟨c, List.mem_append.mpr (Or.inr (List.mem_singleton.mpr rfl)),
              ?_, rfl, rfl, rfl⟩⟩
          simpa using hint
        · intro hfalse
          simp at hfalse
        · intro c2 hc2 t2 ht2
          rcases List.mem_append.mp hc2 with hc2 | hc2
          · exact le_trans (le_of_lt hlt) (hmin c2 hc2 t2 ht2)
          · rcases List.mem_singleton.mp hc2 with rfl
            rw [hint] at ht2
            cases ht2
            exact le_refl _
      · rw [if_neg hlt]
        refine ⟨hhitW s hhit, hmiss, ?_⟩
        intro c2 hc2 t2 ht2
        rcases List.mem_append.mp hc2 with hc2 | hc2
        · exact hmin c2 hc2 t2 ht2
        · rcases List.mem_singleton.mp hc2 with rfl
          rw [hint] at ht2
          cases ht2
          exact not_lt.mp hlt

/-- The scan fold preserves the raycast invariant across a whole candidate
list. -/
theorem raycastScan_foldl_inv (sq : K → K) (ray : NexusRay K) (maxd : K) :
    ∀ (cands done : List (Nat × V3 K)) (s : RaycastScan K),
      raycastScanInv sq ray maxd done s →
      raycastScanInv sq ray maxd (done ++ cands)
        (cands.foldl (raycastScanStep sq ray) s) := by
  intro cands
  induction cands with
  | nil => intro done s h; simpa using h
  | cons c cs ih =>
      intro done s h
      have h1 := raycastScanStep_inv sq ray maxd done s c h
      have h2 := ih (done ++ [c]) (raycastScanStep sq ray s c) h1
      simpa [List.append_assoc] using h2

/-- The invariant holds for the whole candidate list of
`nexus_physics_raycast` at the state the output is built from. -/
theorem raycastScan_inv_of_raycast (sq : K → K) (origin direction : V3 K)
    (maxd : K) (cands : List (Nat × V3 K)) :
    raycastScanInv sq
      (nexus_ray_set sq origin.x origin.y origin.z direction.x direction.y
        direction.z) maxd cands
      (cands.foldl
        (raycastScanStep sq
          (nexus_ray_set sq origin.x origin.y origin.z direction.x direction.y
            direction.z))
        ⟨maxd, 0, ⟨0, 0, 0⟩, ⟨0, 0, 0⟩, false⟩) := by
  have hinit : raycastScanInv sq
      (nexus_ray_set sq origin.x origin.y origin.z direction.x direction.y
        direction.z) maxd []
      ⟨maxd, 0, ⟨0, 0, 0⟩, ⟨0, 0, 0⟩, false⟩ := by
    unfold raycastScanInv
    constructor
    · intro h
      cases h
    constructor
    · intro _
      rfl
    · intro c hc t ht
      cases hc
  simpa using raycastScan_foldl_inv sq _ maxd cands [] _ hinit

/-- Counterexample to claim C7: on a miss `nexus_physics_raycast` returns the
hit outputs `entity = 0`, zero point and normal, but `hit_distance` is left
at `max_distance` (part_005:896), not zeroed: with no candidates and
`max_distance = 5` the returned distance is `5 ≠ 0`.  Also a sphere whose
intersection parameter `t` equals `max_distance` exactly is rejected (the
scan needs `t < max_distance`, part_005:923), while the claim's `t ≤
max_distance` would accept it. -/
theorem claim_C7_counterexample :
    nexus_physics_raycast (fun x : ℚ => if x = 1 then 1 else if x = 4 then 2 else 0)
        [] ⟨0, 0, 0⟩ ⟨1, 0, 0⟩ 5 = (false, 0, ⟨0, 0, 0⟩, ⟨0, 0, 0⟩, 5) ∧
      (5 : ℚ) ≠ 0 ∧
      nexus_ray_sphere_intersect
          (fun x : ℚ => if x = 1 then 1 else if x = 4 then 2 else 0)
          (nexus_ray_set (fun x : ℚ => if x = 1 then 1 else if x = 4 then 2 else 0)
            0 0 0 1 0 0) ⟨2, 0, 0⟩ 1 = some 1 ∧
      nexus_physics_raycast (fun x : ℚ => if x = 1 then 1 else if x = 4 then 2 else 0)
          [(7, ⟨2, 0, 0⟩)] ⟨0, 0, 0⟩ ⟨1, 0, 0⟩ 1 =
        (false, 0, ⟨0, 0, 0⟩, ⟨0, 0, 0⟩, 1) := by
  refine ⟨?_, by norm_num, ?_, ?_⟩
  · rfl
  · norm_num [nexus_ray_sphere_intersect, nexus_ray_set, glm_vec3_normalize,
      glm_vec3_norm2, glm_vec3_dot, glm_vec3_sub, glm_vec3_scale]
  · norm_num [nexus_physics_raycast, raycastScanStep, nexus_ray_sphere_intersect,
      nexus_ray_set, glm_vec3_normalize, glm_vec3_norm2, glm_vec3_dot,
      glm_vec3_sub, glm_vec3_scale]

/-- Claim C7 (amended): `nexus_physics_raycast` tests the ray (direction
normalized first) against every candidate body as a unit sphere at its
position and returns the entity achieving the smallest intersection
parameter `t` that is strictly less than `max_distance`, together with the
hit point `origin + t*direction` and the normalized point-minus-centre
normal; when no candidate intersects below `max_distance` it reports no hit
— returning `false` with entity, point and normal zeroed and the distance
output left at `max_distance` — rather than raising an error. -/
theorem claim_C7_amended_raycast :
    (∀ (K : Type) [LinearOrderedField K] (sq : K → K)
        (cands : List (Nat × V3 K)) (origin direction : V3 K) (maxd : K),
        (nexus_physics_raycast sq cands origin direction maxd).1 = false →
        nexus_physics_raycast sq cands origin direction maxd =
          (false, 0, ⟨0, 0, 0⟩, ⟨0, 0, 0⟩, maxd)) ∧
      (∀ (K : Type) [LinearOrderedField K] (sq : K → K)
          (cands : List (Nat × V3 K)) (origin direction : V3 K) (maxd : K),
          (∀ c ∈ cands, ∀ t,
              nexus_ray_sphere_intersect sq
                  (nexus_ray_set sq origin.x origin.y origin.z direction.x
                    direction.y direction.z) c.2 1 = some t → maxd ≤ t) →
          nexus_physics_raycast sq cands origin direction maxd =
            (false, 0, ⟨0, 0, 0⟩, ⟨0, 0, 0⟩, maxd)) ∧
      (∀ (K : Type) [LinearOrderedField K] (sq : K → K)
          (cands : List (Nat × V3 K)) (origin direction : V3 K) (maxd : K),
          (nexus_physics_raycast sq cands origin direction maxd).1 = true →
          (nexus_physics_raycast sq cands origin direction maxd).2.2.2.2 <
              maxd ∧
            (∃ c ∈ cands,
              nexus_ray_sphere_intersect sq
                  (nexus_ray_set sq origin.x origin.y origin.z direction.x
                    direction.y direction.z) c.2 1 =
                  some
                    (nexus_physics_raycast sq cands origin direction
                        maxd).2.2.2.2 ∧
                (nexus_physics_raycast sq cands origin direction maxd).2.1 =
                  c.1 ∧
                (nexus_physics_raycast sq cands origin direction
                      maxd).2.2.1 =
                  glm_vec3_add
                    (nexus_ray_set sq origin.x origin.y origin.z direction.x
                      direction.y direction.z).origin
                    (glm_vec3_scale
                      (nexus_ray_set sq origin.x origin.y origin.z direction.x
                        direction.y direction.z).direction
                      (nexus_physics_raycast sq cands origin direction
                          maxd).2.2.2.2) ∧
                (nexus_physics_raycast sq cands origin direction
                      maxd).2.2.2.1 =
                  glm_vec3_normalize sq
                    (glm_vec3_sub
                      (nexus_physics_raycast sq cands origin direction
                          maxd).2.2.1 c.2)) ∧
            ∀ c ∈ cands, ∀ t,
              nexus_ray_sphere_intersect sq
                  (nexus_ray_set sq origin.x origin.y origin.z direction.x
                    direction.y direction.z) c.2 1 = some t →
              (nexus_physics_raycast sq cands origin direction maxd).2.2.2.2 ≤
                t) := by
  have hmain : ∀ (K : Type) [LinearOrderedField K] (sq : K → K)
      (cands : List (Nat × V3 K)) (origin direction : V3 K) (maxd : K),
      (nexus_physics_raycast sq cands origin direction maxd).1 = false →
      nexus_physics_raycast sq cands origin direction maxd =
        (false, 0, ⟨0, 0, 0⟩, ⟨0, 0, 0⟩, maxd) := by
    intro K _ sq cands origin direction maxd hfalse
    rw [nexus_physics_raycast] at hfalse ⊢
    set scan := cands.foldl
      (raycastScanStep sq
        (nexus_ray_set sq origin.x origin.y origin.z direction.x direction.y
          direction.z))
      ⟨maxd, 0, ⟨0, 0, 0⟩, ⟨0, 0, 0⟩, false⟩ with hscan
    by_cases hsf : scan.hit_found = true
    · rw [if_pos hsf] at hfalse; cases hfalse
    · rw [if_neg hsf]
  refine ⟨hmain, ?_, ?_⟩
  · intro K _ sq cands origin direction maxd hall
    have hinv := raycastScan_inv_of_raycast sq origin direction maxd cands
    obtain ⟨hhit, hmiss, hmin⟩ := hinv
    apply hmain
    rw [nexus_physics_raycast]
    set scan := cands.foldl
      (raycastScanStep sq
        (nexus_ray_set sq origin.x origin.y origin.z direction.x direction.y
          direction.z))
      ⟨maxd, 0, ⟨0, 0, 0⟩, ⟨0, 0, 0⟩, false⟩ with hscan
    by_cases hsf : scan.hit_found = true
    · exfalso
      obtain ⟨hlt, c, hc, hint, _⟩ := hhit hsf
      exact absurd (hall c hc _ hint) (not_le.mpr hlt)
    · rw [if_neg hsf]
  · intro K _ sq cands origin direction maxd htrue
    have hinv := raycastScan_inv_of_raycast sq origin direction maxd cands
    obtain ⟨hhit, hmiss, hmin⟩ := hinv
    rw [nexus_physics_raycast] at htrue ⊢
    set scan := cands.foldl
      (raycastScanStep sq
        (nexus_ray_set sq origin.x origin.y origin.z direction.x direction.y
          direction.z))
      ⟨maxd, 0, ⟨0, 0, 0⟩, ⟨0, 0, 0⟩, false⟩ with hscan
    by_cases hsf : scan.hit_found = true
    · rw [if_pos hsf] at htrue ⊢
      obtain ⟨hlt, c, hc, hint, hent, hpt, hnrm⟩ := hhit hsf
      refine ⟨hlt, ⟨c, hc, hint, hent, ?_, ?_⟩, ?_⟩
      · simpa using hpt
      · simpa using hnrm
      · intro c2 hc2 t2 ht2
        exact hmin c2 hc2 t2 ht2
    · rw [if_neg hsf] at htrue
      cases htrue

/-- Witness for C7 (amended): one unit sphere at `(3,0,0)`, ray from the
origin along `+x`, `max_distance = 10` — the raycast reports a hit and the
theorem bounds its returned distance below 10. -/
theorem claim_C7_amended_witness :
    (nexus_physics_raycast
        (fun x : ℚ => if x = 1 then 1 else if x = 4 then 2 else 0)
        [(7, ⟨3, 0, 0⟩)] ⟨0, 0, 0⟩ ⟨1, 0, 0⟩ 10).1 = true ∧
      (nexus_physics_raycast
        (fun x : ℚ => if x = 1 then 1 else if x = 4 then 2 else 0)
        [(7, ⟨3, 0, 0⟩)] ⟨0, 0, 0⟩ ⟨1, 0, 0⟩ 10).2.2.2.2 < 10 := by
  have h1 : (nexus_physics_raycast
      (fun x : ℚ => if x = 1 then 1 else if x = 4 then 2 else 0)
      [(7, ⟨3, 0, 0⟩)] ⟨0, 0, 0⟩ ⟨1, 0, 0⟩ 10).1 = true := by
    norm_num [nexus_physics_raycast, raycastScanStep,
      nexus_ray_sphere_intersect, nexus_ray_set, glm_vec3_normalize,
      glm_vec3_norm2, glm_vec3_dot, glm_vec3_sub, glm_vec3_scale]
  exact ⟨h1, (claim_C7_amended_raycast.2.2 ℚ
    (fun x : ℚ => if x = 1 then 1 else if x = 4 then 2 else 0)
    [(7, ⟨3, 0, 0⟩)] ⟨0, 0, 0⟩ ⟨1, 0, 0⟩ 10 h1).1⟩

/-- Claim C8: whenever a Camera component with `primary == true` is added or
set on entity `e` of a camera store with distinct entities, the registered
observer demotes every other holder: afterwards the entities observed with
`primary == true` are exactly `[e]`, and every entity other than `e` has
`primary == false`. -/
theorem claim_C8_primary_camera :
    ∀ (w : List (Nat × NexusCameraComponent)) (e : Nat)
        (cam : NexusCameraComponent),
      cam.primary = true → (w.map Prod.fst).Nodup →
      (((nexus_camera_set w e cam).filter fun pc => pc.2.primary).map
          Prod.fst = [e] ∧
        ∀ pc ∈ nexus_camera_set w e cam, pc.1 ≠ e → pc.2.primary = false) := by
  intro w e cam hprim hnodup
  have hset : nexus_camera_set w e cam = camera_primary_observer
      (if w.any fun pc => pc.1 = e then
        w.map fun pc => if pc.1 = e then (e, cam) else pc
      else w ++ [(e, cam)]) e := by
    rw [nexus_camera_set, hprim]
    simp
  set w1 := (if w.any fun pc => pc.1 = e then
      w.map fun pc => if pc.1 = e then (e, cam) else pc
    else w ++ [(e, cam)]) with hw1
  have hval : ∀ pc ∈ w1, pc.1 = e → pc.2 = cam := by
    intro pc hpc hfst
    rw [hw1] at hpc
    by_cases hany : w.any fun pc => pc.1 = e
    · rw [if_pos hany] at hpc
      obtain ⟨pc0, hpc0, hmap⟩ := List.mem_map.mp hpc
      by_cases h0 : pc0.1 = e
      · rw [if_pos h0] at hmap
        rw [← hmap]
      · rw [if_neg h0] at hmap
        rw [← hmap] at hfst
        exact absurd hfst h0
    · rw [if_neg hany] at hpc
      rcases List.mem_append.mp hpc with hpc | hpc
      · exfalso
        apply hany
        rw [List.any_eq_true]
        exact ⟨pc, hpc, by simp [hfst]⟩
      · rcases List.mem_singleton.mp hpc with rfl
        rfl
  have hcount : (w1.map Prod.fst).count e = 1 := by
    rw [hw1]
    by_cases hany : w.any fun pc => pc.1 = e
    · rw [if_pos hany]
      have hmapeq : (w.map fun pc => if pc.1 = e then (e, cam) else pc).map
          Prod.fst = w.map Prod.fst := by
        rw [List.map_map]
        apply List.map_congr_left
        intro pc _
        by_cases h0 : pc.1 = e
        · simp [h0]
        · simp [h0]
      rw [hmapeq]
      have hmem : e ∈ w.map Prod.fst := by
        rw [List.any_eq_true] at hany
        obtain ⟨pc, hpc, hd⟩ := hany
        rw [decide_eq_true_eq] at hd
        exact hd ▸ List.mem_map_of_mem Prod.fst hpc
      exact List.count_eq_one_of_mem hnodup hmem
    · rw [if_neg hany]
      have hnmem : e ∉ w.map Prod.fst := by
        intro hmem
        apply hany
        obtain ⟨pc, hpc, hfst⟩ := List.mem_map.mp hmem
        rw [List.any_eq_true]
        exact ⟨pc, hpc, by simp [hfst]⟩
      simp [List.count_append, List.count_eq_zero_of_not_mem hnmem]
  constructor
  · rw [hset]
    rw [camera_primary_observer]
    rw [List.filter_map]
    have hfc : w1.filter ((fun pc : Nat × NexusCameraComponent =>
        pc.2.primary) ∘ fun pc =>
          if pc.1 = e then pc
          else if pc.2.primary then (pc.1, { pc.2 with primary := false })
          else pc) = w1.filter fun pc => pc.1 == e := by
      apply List.filter_congr
      intro pc hpc
      by_cases h0 : pc.1 = e
      · simp only [Function.comp_apply, if_pos h0]
        rw [hval pc hpc h0, hprim]
        simp [h0]
      · simp only [Function.comp_apply, if_neg h0]
        by_cases hp : pc.2.primary
        · simp [hp, h0]
        · simp [hp, h0]
    rw [hfc]
    have hobsfst : ((w1.filter fun pc => pc.1 == e).map fun pc =>
        if pc.1 = e then pc
        else if pc.2.primary then (pc.1, { pc.2 with primary := false })
        else pc).map Prod.fst =
        (w1.filter fun pc => pc.1 == e).map Prod.fst := by
      rw [List.map_map]
      apply List.map_congr_left
      intro pc _
      by_cases h0 : pc.1 = e
      · simp [h0]
      · by_cases hp : pc.2.primary <;> simp [h0, hp]
    rw [hobsfst]
    have hkeyfilter : (w1.filter fun pc => pc.1 == e).map Prod.fst =
        (w1.map Prod.fst).filter fun k => k == e := by
      rw [List.filter_map]
      rfl
    rw [hkeyfilter, List.filter_beq, hcount]
    rfl
  · intro pc hpc hne
    rw [hset, camera_primary_observer] at hpc
    obtain ⟨pc0, hpc0, hmap⟩ := List.mem_map.mp hpc
    by_cases h0 : pc0.1 = e
    · rw [if_pos h0] at hmap
      rw [← hmap] at hne
      exact absurd h0 hne
    · rw [if_neg h0] at hmap
      by_cases hp : pc0.2.primary
      · rw [if_pos hp] at hmap
        rw [← hmap]
      · rw [if_neg hp] at hmap
        rw [← hmap]
        simpa using hp

/-- Witness for C8: entity 1 holds the primary camera; setting a primary
camera on entity 2 leaves exactly entity 2 primary. -/
theorem claim_C8_witness :
    (((nexus_camera_set [(1, ⟨10, true, true⟩)] 2 ⟨11, true, true⟩).filter
        fun pc => pc.2.primary).map Prod.fst = [2]) ∧
      ∀ pc ∈ nexus_camera_set [(1, ⟨10, true, true⟩)] 2 ⟨11, true, true⟩,
        pc.1 ≠ 2 → pc.2.primary = false :=
  claim_C8_primary_camera [(1, ⟨10, true, true⟩)] 2 ⟨11, true, true⟩ rfl
    (by decide)

end Nexus3d
